import Mathlib

/-!
# Verification of the SIMRS inpatient-admission store layer

A shallow embedding of the patient/room store of the SIMRS repository
(`src/lib/simrs-utils.ts`, `src/lib/file-storage.ts`,
`src/features/simrs/hooks/use-patient-store.ts`, the room store, and
`src/features/simrs/data/patient-schema.ts`), together with proofs of the
behavioural properties stated in the specification.

Modelling conventions:
* JS timestamps (`Date` values / `getTime()` results) are `Int` milliseconds
  since the epoch.  `setHours(0,0,0,0)` on such a timestamp is flooring to a
  multiple of 86400000 (the code always works in a single fixed timezone,
  modelled as UTC); `setHours(23,59,59,999)` is the last millisecond of the
  same day.
* `parseInt(s, 10)` is modelled on the character list of `s`: leading
  whitespace is skipped, an optional sign is read, then the longest digit
  run; `NaN` becomes `none`.
* JS string falsiness (`a || b` on optional strings, where both `undefined`
  and `""` are falsy) is modelled by `jsOrS`.
* Ambient effects are passed explicitly: `generateId()` results, `new Date()`
  and `new Date().getFullYear()` become parameters (`newId`, `now`, `year`),
  and `saveFile` (a `localStorage` effect that can throw) becomes a function
  parameter returning `Except String String` (the stored file id on success).
* The `YYYY-MM-DD` date-key strings produced by `toISOString().split('T')[0]`
  in `getAdmissionTrend` are represented by their UTC day index (an `Int`);
  the map from day index to ISO date string is injective and monotone
  (lexicographic order on equal-length ISO dates is chronological order), so
  keys and their sort order are preserved by this representation.
-/

namespace SIMRS

/-! ## Time arithmetic -/

/-- Milliseconds per calendar day. -/
def msPerDay : Int := 86400000

/-- The calendar-day index of a timestamp (floor division; `Int./` is
Euclidean division, which agrees with flooring for a positive divisor). -/
def dayOf (t : Int) : Int := t / msPerDay

/-- `setHours(0,0,0,0)` applied to a timestamp. -/
def startOfDay (t : Int) : Int := msPerDay * dayOf t

/-- `setHours(23,59,59,999)` applied to a timestamp. -/
def endOfDay (t : Int) : Int := msPerDay * dayOf t + (msPerDay - 1)

/-! ## Decimal strings and `parseInt` -/

/-- Value of a big-endian digit-character run, as accumulated by `parseInt`. -/
def digitsVal (cs : List Char) : Nat :=
  cs.foldl (fun a c => 10 * a + (c.toNat - 48)) 0

/-- Model of JavaScript `parseInt(s, 10)`: skip leading whitespace, read an
optional sign, then the longest run of decimal digits; `NaN` is `none`. -/
def parseIntJS (cs : List Char) : Option Int :=
  match cs.dropWhile Char.isWhitespace with
  | [] => none
  | c :: rest =>
      if c = '-' then
        let ds := rest.takeWhile Char.isDigit
        if ds.isEmpty then none else some (-(digitsVal ds : Int))
      else if c = '+' then
        let ds := rest.takeWhile Char.isDigit
        if ds.isEmpty then none else some (digitsVal ds : Int)
      else
        let ds := (c :: rest).takeWhile Char.isDigit
        if ds.isEmpty then none else some (digitsVal ds : Int)

/-- Little-endian decimal digits of `n`, with explicit fuel so that the
recursion is structural (and hence reduces inside `decide`). -/
def decDigitsRev (fuel : Nat) (n : Nat) : List Nat :=
  match fuel with
  | 0 => []
  | f + 1 => if n = 0 then [] else n % 10 :: decDigitsRev f (n / 10)

/-- Model of JavaScript `String(n)` for a natural number, as characters. -/
def natToChars (n : Nat) : List Char :=
  if n = 0 then ['0'] else ((decDigitsRev n n).reverse).map Nat.digitChar

/-- `String(n).padStart(5, '0')`. -/
def padStart5 (cs : List Char) : List Char :=
  List.replicate (5 - cs.length) '0' ++ cs

/-! ## Record-number generation (`src/lib/simrs-utils.ts`) -/

/-- The characters of the `` `${tag}-${year}-` `` template string used by the
generators (`tag` is `"RM"` or `"REG"`; `year` models
`new Date().getFullYear()`). -/
def pfxChars (tag : String) (year : Nat) : List Char :=
  tag.data ++ '-' :: (natToChars year ++ ['-'])

/-- The parsed numeric suffix of an existing record number: `some v` when the
string starts with the year template and `parseInt` of the remainder is not
`NaN`, as tested by the generator loop. -/
def suffixVal (pfx : List Char) (s : List Char) : Option Int :=
  if pfx.isPrefixOf s then parseIntJS (s.drop pfx.length) else none

/-- The `maxNumber` accumulator loop of `generateNoRM` /
`generateNomorRegistrasi`. -/
def maxNumber (pfx : List Char) (existing : List (List Char)) : Int :=
  existing.foldl
    (fun acc s =>
      match suffixVal pfx s with
      | some n => if n > acc then n else acc
      | none => acc)
    0

/-- Common body of `generateNoRM` and `generateNomorRegistrasi` (the two
functions are textually identical up to the `RM`/`REG` tag). -/
def generateNumber (tag : String) (year : Nat) (existing : List String) : String :=
  let pfx := pfxChars tag year
  let next := (maxNumber pfx (existing.map String.data)).toNat + 1
  String.mk (pfx ++ padStart5 (natToChars next))

/-- `generateNoRM` from `src/lib/simrs-utils.ts`. -/
def generateNoRM (year : Nat) (existing : List String) : String :=
  generateNumber "RM" year existing

/-- `generateNomorRegistrasi` from `src/lib/simrs-utils.ts`. -/
def generateNomorRegistrasi (year : Nat) (existing : List String) : String :=
  generateNumber "REG" year existing

/-! ## Generic list machinery: stable insertion sort (model of `Array.sort`) -/

/-- Insert into a sorted list: `a` goes in front of the first element `x`
with `le a x`. -/
def insertSorted (le : α → α → Bool) (a : α) : List α → List α
  | [] => [a]
  | x :: xs => if le a x then a :: x :: xs else x :: insertSorted le a xs

/-- Insertion sort, the model of `Array.prototype.sort` with a comparator
(only ordering and multiset identity of the result are relied upon). -/
def insertionSort (le : α → α → Bool) : List α → List α
  | [] => []
  | x :: xs => insertSorted le x (insertionSort le xs)

/-! ## The patient data model (`src/features/simrs/data`) -/

/-- Patient status enumeration (`'Aktif' | 'Keluar'`). -/
inductive PatientStatus
  | aktif
  | keluar
  deriving DecidableEq, Repr

/-- One inpatient admission record, with the fields manipulated by the store
(dates as epoch milliseconds, optional fields as `Option`).  The legacy
compatibility fields (`name`, `dateOfBirth`, …), which the modelled
operations never read or write, are omitted. -/
structure Patient where
  id : String
  nik : String
  namaLengkap : String
  tanggalLahir : Int
  jenisKelamin : String
  noHandphone : String
  alamatDomisili : String
  nomorRegistrasi : String
  tanggalJamMasuk : Int
  caraMasuk : String
  dpjp : String
  diagnosaMasuk : String
  keluhanUtama : Option String
  asalRujukan : Option String
  namaFaskesPerujuk : Option String
  nomorSuratRujukan : Option String
  tanggalSuratRujukan : Option Int
  diagnosaRujukan : Option String
  fileSuratRujukan : Option String
  kelasPerawatan : String
  namaRuangan : String
  nomorBed : String
  namaPenanggungJawab : String
  hubunganDenganPasien : String
  noHPPenanggungJawab : String
  alamatPenanggungJawab : Option String
  caraBayar : String
  nomorKartuPolis : Option String
  kelasHakRawat : Option String
  status : PatientStatus
  tanggalKeluar : Option Int
  registrationDate : Int
  noRM : String
  createdAt : Int
  updatedAt : Int
  deriving DecidableEq, Repr

/-- `PatientFormData` (= `AdmissionFormData`): what the admission form
submits; the auto-generated fields are absent. -/
structure PatientFormData where
  nik : String
  namaLengkap : String
  tempatLahir : Option String
  tanggalLahir : Int
  jenisKelamin : String
  noHandphone : String
  alamatDomisili : String
  tanggalJamMasuk : Int
  caraMasuk : String
  dpjp : String
  diagnosaMasuk : String
  keluhanUtama : Option String
  asalRujukan : Option String
  namaFaskesPerujuk : Option String
  nomorSuratRujukan : Option String
  tanggalSuratRujukan : Option Int
  diagnosaRujukan : Option String
  fileSuratRujukan : Option String
  kelasPerawatan : String
  namaRuangan : String
  nomorBed : String
  namaPenanggungJawab : String
  hubunganDenganPasien : String
  noHPPenanggungJawab : String
  alamatPenanggungJawab : Option String
  caraBayar : String
  nomorKartuPolis : Option String
  kelasHakRawat : Option String
  deriving DecidableEq, Repr

/-- A `Partial<PatientFormData>` update payload.  Every field is optional
(`none` = key absent).  The payload may also carry `id`, `noRM`,
`nomorRegistrasi` and `registrationDate` keys (a runtime object can contain
them even though the TS type does not), which is exactly what claim C2 is
about. -/
structure PatientUpdates where
  nik : Option String := none
  namaLengkap : Option String := none
  tempatLahir : Option String := none
  tanggalLahir : Option Int := none
  jenisKelamin : Option String := none
  noHandphone : Option String := none
  alamatDomisili : Option String := none
  tanggalJamMasuk : Option Int := none
  caraMasuk : Option String := none
  dpjp : Option String := none
  diagnosaMasuk : Option String := none
  keluhanUtama : Option String := none
  asalRujukan : Option String := none
  namaFaskesPerujuk : Option String := none
  nomorSuratRujukan : Option String := none
  tanggalSuratRujukan : Option Int := none
  diagnosaRujukan : Option String := none
  fileSuratRujukan : Option String := none
  kelasPerawatan : Option String := none
  namaRuangan : Option String := none
  nomorBed : Option String := none
  namaPenanggungJawab : Option String := none
  hubunganDenganPasien : Option String := none
  noHPPenanggungJawab : Option String := none
  alamatPenanggungJawab : Option String := none
  caraBayar : Option String := none
  nomorKartuPolis : Option String := none
  kelasHakRawat : Option String := none
  id : Option String := none
  noRM : Option String := none
  nomorRegistrasi : Option String := none
  registrationDate : Option Int := none
  deriving DecidableEq, Repr

/-- The patient store state (`patients` is the merged view,
`userAddedPatients` the locally-created subset that gets persisted). -/
structure PatientState where
  patients : List Patient
  isLoaded : Bool
  isLoading : Bool
  userAddedPatients : List Patient
  deriving DecidableEq, Repr

/-- An uploaded `File` value (name, MIME type, size in bytes). -/
structure FileV where
  name : String
  type : String
  size : Nat
  deriving DecidableEq, Repr

/-- JavaScript `a || b` on optional strings (`undefined` and `""` are
falsy). -/
def jsOrS : Option String → Option String → Option String
  | some s, b => if s = "" then b else some s
  | none, b => b

/-! ## The patient store (`src/features/simrs/hooks/use-patient-store.ts`) -/

/-- The `sort` comparator `(a, b) => dateB - dateA` used on every mutation:
admission timestamp descending. -/
def byTanggalMasukDesc (a b : Patient) : Bool :=
  b.tanggalJamMasuk ≤ a.tanggalJamMasuk

/-- Re-sort the merged collection by `tanggalJamMasuk`, newest first. -/
def sortByTanggalDesc (l : List Patient) : List Patient :=
  insertionSort byTanggalMasukDesc l

/-- The `rujukanFile` handling shared by `addPatient`/`updatePatient`: when a
file is attached, a failing `saveFile` surfaces as
`'Gagal menyimpan file rujukan. ' + message`; otherwise the stored file id is
returned. -/
def saveRujukan (save : FileV → Except String String) :
    Option FileV → Except String (Option String)
  | none => .ok none
  | some f =>
      match save f with
      | .ok fid => .ok (some fid)
      | .error e => .error ("Gagal menyimpan file rujukan. " ++ e)

/-- The new record built by `addPatient`. -/
def mkNewPatient (d : PatientFormData) (newId noRMv nomorRegV : String)
    (fileId : Option String) (now : Int) : Patient :=
  { id := newId
    nik := d.nik
    namaLengkap := d.namaLengkap
    tanggalLahir := d.tanggalLahir
    jenisKelamin := d.jenisKelamin
    noHandphone := d.noHandphone
    alamatDomisili := d.alamatDomisili
    nomorRegistrasi := nomorRegV
    tanggalJamMasuk := d.tanggalJamMasuk
    caraMasuk := d.caraMasuk
    dpjp := d.dpjp
    diagnosaMasuk := d.diagnosaMasuk
    keluhanUtama := d.keluhanUtama
    asalRujukan := d.asalRujukan
    namaFaskesPerujuk := d.namaFaskesPerujuk
    nomorSuratRujukan := d.nomorSuratRujukan
    tanggalSuratRujukan := d.tanggalSuratRujukan
    diagnosaRujukan := d.diagnosaRujukan
    fileSuratRujukan := jsOrS fileId d.fileSuratRujukan
    kelasPerawatan := d.kelasPerawatan
    namaRuangan := d.namaRuangan
    nomorBed := d.nomorBed
    namaPenanggungJawab := d.namaPenanggungJawab
    hubunganDenganPasien := d.hubunganDenganPasien
    noHPPenanggungJawab := d.noHPPenanggungJawab
    alamatPenanggungJawab := d.alamatPenanggungJawab
    caraBayar := d.caraBayar
    nomorKartuPolis := d.nomorKartuPolis
    kelasHakRawat := d.kelasHakRawat
    status := .aktif
    tanggalKeluar := none
    registrationDate := now
    noRM := noRMv
    createdAt := now
    updatedAt := now }

/-- `addPatient`: reads the existing record numbers, persists the optional
referral file (aborting on failure), generates the identifiers, then appends
the record to both collections and re-sorts the merged view.  Returns the new
state together with the result (`Except` models the thrown error). -/
def addPatient (save : FileV → Except String String) (st : PatientState)
    (d : PatientFormData) (rujukanFile : Option FileV) (newId : String)
    (now : Int) (year : Nat) : PatientState × Except String Patient :=
  let existingNoRMs := st.patients.map (·.noRM)
  let existingNomorRegistrasi := st.patients.map (·.nomorRegistrasi)
  match saveRujukan save rujukanFile with
  | .error e => (st, .error e)
  | .ok fileId =>
      let newPatient := mkNewPatient d newId (generateNoRM year existingNoRMs)
        (generateNomorRegistrasi year existingNomorRegistrasi) fileId now
      ({ st with
          patients := sortByTanggalDesc (st.patients ++ [newPatient])
          userAddedPatients := st.userAddedPatients ++ [newPatient] },
        .ok newPatient)

/-- The merge performed on the matching record by `updatePatient`: spread the
payload over the record, then restore `id`, `noRM`, `nomorRegistrasi` and
`registrationDate`, resolve `fileSuratRujukan` by JS `||`, and stamp
`updatedAt`. -/
def applyUpdates (p : Patient) (u : PatientUpdates) (fileId : Option String)
    (now : Int) : Patient :=
  let merged : Patient :=
    { p with
      nik := u.nik.getD p.nik
      namaLengkap := u.namaLengkap.getD p.namaLengkap
      tanggalLahir := u.tanggalLahir.getD p.tanggalLahir
      jenisKelamin := u.jenisKelamin.getD p.jenisKelamin
      noHandphone := u.noHandphone.getD p.noHandphone
      alamatDomisili := u.alamatDomisili.getD p.alamatDomisili
      tanggalJamMasuk := u.tanggalJamMasuk.getD p.tanggalJamMasuk
      caraMasuk := u.caraMasuk.getD p.caraMasuk
      dpjp := u.dpjp.getD p.dpjp
      diagnosaMasuk := u.diagnosaMasuk.getD p.diagnosaMasuk
      keluhanUtama := if u.keluhanUtama.isSome then u.keluhanUtama else p.keluhanUtama
      asalRujukan := if u.asalRujukan.isSome then u.asalRujukan else p.asalRujukan
      namaFaskesPerujuk := if u.namaFaskesPerujuk.isSome then u.namaFaskesPerujuk else p.namaFaskesPerujuk
      nomorSuratRujukan := if u.nomorSuratRujukan.isSome then u.nomorSuratRujukan else p.nomorSuratRujukan
      tanggalSuratRujukan := if u.tanggalSuratRujukan.isSome then u.tanggalSuratRujukan else p.tanggalSuratRujukan
      diagnosaRujukan := if u.diagnosaRujukan.isSome then u.diagnosaRujukan else p.diagnosaRujukan
      fileSuratRujukan := if u.fileSuratRujukan.isSome then u.fileSuratRujukan else p.fileSuratRujukan
      kelasPerawatan := u.kelasPerawatan.getD p.kelasPerawatan
      namaRuangan := u.namaRuangan.getD p.namaRuangan
      nomorBed := u.nomorBed.getD p.nomorBed
      namaPenanggungJawab := u.namaPenanggungJawab.getD p.namaPenanggungJawab
      hubunganDenganPasien := u.hubunganDenganPasien.getD p.hubunganDenganPasien
      noHPPenanggungJawab := u.noHPPenanggungJawab.getD p.noHPPenanggungJawab
      alamatPenanggungJawab := if u.alamatPenanggungJawab.isSome then u.alamatPenanggungJawab else p.alamatPenanggungJawab
      caraBayar := u.caraBayar.getD p.caraBayar
      nomorKartuPolis := if u.nomorKartuPolis.isSome then u.nomorKartuPolis else p.nomorKartuPolis
      kelasHakRawat := if u.kelasHakRawat.isSome then u.kelasHakRawat else p.kelasHakRawat
      id := u.id.getD p.id
      noRM := u.noRM.getD p.noRM
      nomorRegistrasi := u.nomorRegistrasi.getD p.nomorRegistrasi
      registrationDate := u.registrationDate.getD p.registrationDate }
  { merged with
    id := p.id
    noRM := p.noRM
    nomorRegistrasi := p.nomorRegistrasi
    registrationDate := p.registrationDate
    fileSuratRujukan := jsOrS fileId (jsOrS u.fileSuratRujukan p.fileSuratRujukan)
    updatedAt := now }

/-- `updatePatient`: persists a replacement referral file first (aborting on
failure), then maps the merge over the matching record, re-sorts when the
admission timestamp changed, and mirrors the captured updated record into the
user-added subset.  Returns `none` when no record matches. -/
def updatePatient (save : FileV → Except String String) (st : PatientState)
    (id : String) (u : PatientUpdates) (rujukanFile : Option FileV)
    (now : Int) : PatientState × Except String (Option Patient) :=
  match saveRujukan save rujukanFile with
  | .error e => (st, .error e)
  | .ok fileId =>
      let upd := fun p => applyUpdates p u fileId now
      let patients1 := st.patients.map (fun p => if p.id = id then upd p else p)
      let patients2 :=
        if u.tanggalJamMasuk.isSome then sortByTanggalDesc patients1 else patients1
      let updatedPatient := ((st.patients.filter (fun p => p.id = id)).getLast?).map upd
      ({ st with
          patients := patients2
          userAddedPatients := st.userAddedPatients.map
            (fun p => if p.id = id then updatedPatient.getD p else p) },
        .ok updatedPatient)

/-- `deletePatient`: `false` when the id is unknown, otherwise both
collections are filtered (the associated stored file deletion is an external
`localStorage` effect with no store-state footprint). -/
def deletePatient (st : PatientState) (id : String) : Bool × PatientState :=
  match st.patients.find? (fun p => p.id = id) with
  | none => (false, st)
  | some _ =>
      (true,
        { st with
          patients := st.patients.filter (fun p => ¬p.id = id)
          userAddedPatients := st.userAddedPatients.filter (fun p => ¬p.id = id) })

/-- `dischargePatient`: flips the matching record to `Keluar` with the given
discharge timestamp (only the merged view is updated by the source). -/
def dischargePatient (st : PatientState) (id : String) (tanggalKeluar : Int)
    (now : Int) : PatientState × Option Patient :=
  let f := fun p =>
    { p with status := PatientStatus.keluar, tanggalKeluar := some tanggalKeluar,
             updatedAt := now }
  ({ st with
      patients := st.patients.map (fun p => if p.id = id then f p else p) },
    ((st.patients.filter (fun p => p.id = id)).getLast?).map f)

/-- `loadMockData`: guarded by the loading flags; on success merges the
fetched collection with the user-added subset (sorted newest-first), on
fetch failure falls back to the user-added subset alone. -/
def loadMockData (st : PatientState) (mockResult : Except Unit (List Patient)) :
    PatientState :=
  if st.isLoading then st
  else if st.isLoaded ∧ 0 < st.patients.length then st
  else
    match mockResult with
    | .ok mockPatients =>
        { st with
          patients := sortByTanggalDesc (mockPatients ++ st.userAddedPatients)
          isLoaded := true
          isLoading := false }
    | .error _ =>
        { st with
          patients := st.userAddedPatients
          isLoaded := true
          isLoading := false }

/-! ## Search-and-filter and analytics (`use-patient-store.ts`) -/

/-- `PatientFilters` (all keys optional). -/
structure PatientFilters where
  status : Option PatientStatus := none
  kelasPerawatan : Option (List String) := none
  caraBayar : Option (List String) := none
  tanggalMasukStart : Option Int := none
  tanggalMasukEnd : Option Int := none
  deriving DecidableEq, Repr

/-- `filterPatients`: the sequential filter chain of the source.  Each list
criterion is only applied when the key is present *and* the array is
non-empty (`filters.kelasPerawatan && filters.kelasPerawatan.length > 0`);
the date bounds compare day-floored timestamps. -/
def filterPatients (st : PatientState) (filters : PatientFilters) : List Patient :=
  let l0 := st.patients
  let l1 :=
    match filters.status with
    | some s => l0.filter (fun p => p.status = s)
    | none => l0
  let l2 :=
    match filters.kelasPerawatan with
    | some ks =>
        if 0 < ks.length then l1.filter (fun p => ks.contains p.kelasPerawatan) else l1
    | none => l1
  let l3 :=
    match filters.caraBayar with
    | some cs =>
        if 0 < cs.length then l2.filter (fun p => cs.contains p.caraBayar) else l2
    | none => l2
  let l4 :=
    match filters.tanggalMasukStart with
    | some s => l3.filter (fun p => startOfDay s ≤ startOfDay p.tanggalJamMasuk)
    | none => l3
  match filters.tanggalMasukEnd with
  | some e => l4.filter (fun p => startOfDay p.tanggalJamMasuk ≤ endOfDay e)
  | none => l4

/-- One bucket of the admission trend; `date` is the UTC day index standing
for the `YYYY-MM-DD` key string. -/
structure TrendEntry where
  date : Int
  count : Nat
  byCaraMasuk : List (String × Nat)
  deriving DecidableEq, Repr

/-- JS plain-object / `Map` counter increment: update the existing key in
place, or append a new key with count 1. -/
def incrAssoc : List (String × Nat) → String → List (String × Nat)
  | [], k => [(k, 1)]
  | e :: rest, k =>
      if e.1 = k then (e.1, e.2 + 1) :: rest else e :: incrAssoc rest k

/-- Counter lookup with default 0 (`map.get(k) || 0`). -/
def lookupCount : List (String × Nat) → String → Nat
  | [], _ => 0
  | e :: rest, k => if e.1 = k then e.2 else lookupCount rest k

/-- Record one admission into the date map: `dateMap.get(dateStr)` is only
incremented when the key was initialised (`if (entry)`). -/
def bumpTrend (m : List TrendEntry) (day : Int) (cm : String) : List TrendEntry :=
  m.map (fun e =>
    if e.date = day then
      { e with count := e.count + 1, byCaraMasuk := incrAssoc e.byCaraMasuk cm }
    else e)

/-- `getAdmissionTrend`: window start is `now` minus `days` days floored to
midnight; a zero bucket is initialised for every day of the window, the
in-range admissions are tallied, and the buckets are sorted by date key. -/
def getAdmissionTrend (st : PatientState) (now : Int) (days : Nat) :
    List TrendEntry :=
  let startDay := dayOf (now - msPerDay * days)
  let recentPatients := st.patients.filter
    (fun p => msPerDay * startDay ≤ p.tanggalJamMasuk)
  let initMap := (List.range days).map
    (fun i : Nat => TrendEntry.mk (startDay + (i : Int)) 0 [])
  let filled := recentPatients.foldl
    (fun m p => bumpTrend m (dayOf p.tanggalJamMasuk) p.caraMasuk) initMap
  insertionSort (fun a b => a.date ≤ b.date) filled

/-- One row of the bed-occupancy report. -/
structure OccupancyEntry where
  kelas : String
  total : Nat
  occupied : Nat
  percentage : Nat
  deriving DecidableEq, Repr

/-- The hard-coded care-class list of `getBedOccupancyByClass`. -/
def careClasses : List String := ["VVIP", "VIP", "Kelas 1", "Kelas 2", "Kelas 3", "ICU"]

/-- `getBedOccupancyByClass`: occupied = active patients per class (tallied
through a `Map`); `total = Math.max(occupied, Math.ceil(occupied * 1.5)) || 10`
(`Math.ceil(n * 1.5)` is `(3n+1)/2` on naturals, and `|| 10` fires exactly
when the max is 0); `percentage = Math.round(occupied / total * 100)`
(round half up, `(200·occ + total) / (2·total)` on naturals) guarded by
`total > 0`. -/
def getBedOccupancyByClass (st : PatientState) : List OccupancyEntry :=
  let occupiedByClass := (st.patients.filter (fun p => p.status = PatientStatus.aktif)).foldl
    (fun m p => incrAssoc m p.kelasPerawatan) []
  careClasses.map (fun kelas =>
    let occupied := lookupCount occupiedByClass kelas
    let totalRaw := max occupied ((3 * occupied + 1) / 2)
    let total := if totalRaw = 0 then 10 else totalRaw
    let percentage := if 0 < total then (200 * occupied + total) / (2 * total) else 0
    ⟨kelas, total, occupied, percentage⟩)

/-! ## The room store (`use-room-store.ts`) -/

/-- Room status enumeration (`'Tersedia' | 'Terisi' | 'Maintenance' |
'Reservasi'`). -/
inductive RoomStatus
  | tersedia
  | terisi
  | maintenance
  | reservasi
  deriving DecidableEq, Repr

/-- One room record (the fields `deleteRoom`/`canDeleteRoom` consult). -/
structure Room where
  id : String
  roomNumber : String
  roomType : String
  floor : Int
  capacity : Nat
  status : RoomStatus
  assignedPatientId : Option String
  deriving DecidableEq, Repr

/-- The room store state. -/
structure RoomState where
  rooms : List Room
  userAddedRooms : List Room
  deriving DecidableEq, Repr

/-- `getRoomById`. -/
def getRoomById (st : RoomState) (id : String) : Option Room :=
  st.rooms.find? (fun r => r.id = id)

/-- `canDeleteRoom`: unknown ids cannot be deleted; otherwise any status but
`'Terisi'` can. -/
def canDeleteRoom (st : RoomState) (id : String) : Bool :=
  match getRoomById st id with
  | none => false
  | some room => room.status ≠ RoomStatus.terisi

/-- `deleteRoom`: `false` (state untouched) when the id is unknown or the
room is occupied; otherwise both collections are filtered. -/
def deleteRoom (st : RoomState) (id : String) : Bool × RoomState :=
  match st.rooms.find? (fun r => r.id = id) with
  | none => (false, st)
  | some _ =>
      if canDeleteRoom st id then
        (true,
          { st with
            rooms := st.rooms.filter (fun r => ¬r.id = id)
            userAddedRooms := st.userAddedRooms.filter (fun r => ¬r.id = id) })
      else (false, st)

/-! ## Referral-file validation (`src/lib/file-storage.ts` and the
`FileUpload` component) -/

/-- `MAX_FILE_SIZE = 5 * 1024 * 1024`. -/
def MAX_FILE_SIZE : Nat := 5 * 1024 * 1024

/-- The `allowedTypes` list of `validateRujukanFile`. -/
def allowedRujukanTypes : List String :=
  ["application/pdf", "image/jpeg", "image/jpg", "image/png"]

/-- Result shape of `validateRujukanFile` (`{ valid, error? }`). -/
structure ValidationResult where
  valid : Bool
  error : Option String
  deriving DecidableEq, Repr

/-- `validateRujukanFile`: type must be in the allowed list, size at most
`MAX_FILE_SIZE`. -/
def validateRujukanFile (f : FileV) : ValidationResult :=
  if ¬allowedRujukanTypes.contains f.type then
    ⟨false, some "Format file tidak didukung. Gunakan PDF, JPG, atau PNG."⟩
  else if MAX_FILE_SIZE < f.size then
    ⟨false, some "Ukuran file terlalu besar. Maksimal 5MB."⟩
  else ⟨true, none⟩

/-- `handleFile` of the `FileUpload` component: a file is accepted into the
form (and can later be stored by `saveFile`) only when
`validateRujukanFile` passes; otherwise it is dropped with the error
surfaced. -/
def handleFile (f : FileV) : Option FileV :=
  if (validateRujukanFile f).valid then some f else none

/-! ## The admission validation schema
(`src/features/simrs/data/patient-schema.ts`) -/

/-- A validation issue: field path plus message. -/
abbrev Issue : Type := List String × String

/-- `/^\d{16}$/`. -/
def nik16 (s : String) : Bool := s.data.all Char.isDigit && s.length = 16

/-- `/^[0-9]{10,15}$/`. -/
def phone10to15 (s : String) : Bool :=
  s.data.all Char.isDigit && decide (10 ≤ s.length) && decide (s.length ≤ 15)

/-- `if cond then [issue] else []`, the building block of the issue list. -/
def issueIf (b : Bool) (path : List String) (msg : String) : List Issue :=
  if b then [(path, msg)] else []

/-- Max-length check on an optional string field (absent fields produce no
issue). -/
def optMaxLen (o : Option String) (n : Nat) (path : List String) (msg : String) :
    List Issue :=
  match o with
  | some s => issueIf (n < s.length) path msg
  | none => []

/-- Enum-membership check on an optional string field. -/
def optEnumIssue (o : Option String) (values : List String) (path : List String) :
    List Issue :=
  match o with
  | some s => issueIf (¬values.contains s) path "Invalid enum value"
  | none => []

/-- Field-level issues of `admissionSchema`, in schema order.  String-typed
enum fields use the zod default enum message (the exact wording of
library-generated messages is immaterial to the properties proved here);
the always-true `.refine((date) => date !== undefined)` checks on parsed
dates are omitted. -/
def fieldIssues (d : PatientFormData) (nowV : Int) : List Issue :=
  List.flatten
    [issueIf (d.nik.length < 1) ["nik"]
      "NIK tidak boleh kosong. Silakan masukkan NIK pasien.",
    issueIf (¬nik16 d.nik) ["nik"]
      "NIK harus terdiri dari 16 digit angka. Contoh: 3201234567890123",
    issueIf (d.namaLengkap.length < 2) ["namaLengkap"]
      "Nama terlalu pendek. Minimal 2 karakter.",
    issueIf (100 < d.namaLengkap.length) ["namaLengkap"]
      "Nama terlalu panjang. Maksimal 100 karakter.",
    optMaxLen d.tempatLahir 100 ["tempatLahir"]
      "Tempat lahir terlalu panjang. Maksimal 100 karakter.",
    issueIf (nowV < d.tanggalLahir) ["tanggalLahir"]
      "Tanggal lahir tidak boleh di masa depan. Silakan pilih tanggal yang benar.",
    issueIf (¬(d.jenisKelamin = "Laki-laki" ∨ d.jenisKelamin = "Perempuan"))
      ["jenisKelamin"] "Invalid input",
    issueIf (d.noHandphone.length < 1) ["noHandphone"]
      "No. HP tidak boleh kosong. Silakan masukkan nomor handphone.",
    issueIf (¬phone10to15 d.noHandphone) ["noHandphone"]
      "No. HP harus terdiri dari 10-15 digit angka. Contoh: 081234567890",
    issueIf (d.alamatDomisili.length < 10) ["alamatDomisili"]
      "Alamat terlalu pendek. Minimal 10 karakter untuk alamat lengkap.",
    issueIf (500 < d.alamatDomisili.length) ["alamatDomisili"]
      "Alamat terlalu panjang. Maksimal 500 karakter.",
    issueIf (¬(["IGD", "Rawat Jalan-Poli", "Rujukan Luar"].contains d.caraMasuk))
      ["caraMasuk"] "Invalid enum value",
    issueIf (d.dpjp.length < 1) ["dpjp"]
      "DPJP belum dipilih. Silakan pilih dokter penanggung jawab pasien.",
    issueIf (d.diagnosaMasuk.length < 3) ["diagnosaMasuk"]
      "Diagnosa terlalu pendek. Minimal 3 karakter.",
    issueIf (500 < d.diagnosaMasuk.length) ["diagnosaMasuk"]
      "Diagnosa terlalu panjang. Maksimal 500 karakter.",
    optMaxLen d.keluhanUtama 1000 ["keluhanUtama"]
      "Keluhan utama terlalu panjang. Maksimal 1000 karakter.",
    optEnumIssue d.asalRujukan ["Puskesmas", "RS Lain", "Klinik", "Dokter Pribadi"]
      ["asalRujukan"],
    optMaxLen d.namaFaskesPerujuk 200 ["namaFaskesPerujuk"]
      "Nama faskes perujuk terlalu panjang. Maksimal 200 karakter.",
    optMaxLen d.nomorSuratRujukan 100 ["nomorSuratRujukan"]
      "Nomor surat rujukan terlalu panjang. Maksimal 100 karakter.",
    optMaxLen d.diagnosaRujukan 500 ["diagnosaRujukan"]
      "Diagnosa rujukan terlalu panjang. Maksimal 500 karakter.",
    issueIf (¬(["VVIP", "VIP", "Kelas 1", "Kelas 2", "Kelas 3", "ICU"].contains d.kelasPerawatan))
      ["kelasPerawatan"] "Invalid enum value",
    issueIf (d.namaRuangan.length < 1) ["namaRuangan"]
      "Ruangan belum dipilih. Silakan pilih ruangan untuk pasien.",
    issueIf (d.nomorBed.length < 1) ["nomorBed"]
      "Bed belum dipilih. Silakan pilih nomor bed untuk pasien.",
    issueIf (d.namaPenanggungJawab.length < 2) ["namaPenanggungJawab"]
      "Nama penanggung jawab terlalu pendek. Minimal 2 karakter.",
    issueIf (100 < d.namaPenanggungJawab.length) ["namaPenanggungJawab"]
      "Nama penanggung jawab terlalu panjang. Maksimal 100 karakter.",
    issueIf (¬(["Suami", "Istri", "Orang Tua", "Anak", "Saudara", "Lainnya"].contains d.hubunganDenganPasien))
      ["hubunganDenganPasien"] "Invalid enum value",
    issueIf (d.noHPPenanggungJawab.length < 1) ["noHPPenanggungJawab"]
      "No. HP penanggung jawab tidak boleh kosong.",
    issueIf (¬phone10to15 d.noHPPenanggungJawab) ["noHPPenanggungJawab"]
      "No. HP penanggung jawab harus terdiri dari 10-15 digit angka. Contoh: 081234567890",
    optMaxLen d.alamatPenanggungJawab 500 ["alamatPenanggungJawab"]
      "Alamat penanggung jawab terlalu panjang. Maksimal 500 karakter.",
    issueIf (¬(["Umum-Pribadi", "BPJS Kesehatan", "Asuransi Swasta", "Jaminan Perusahaan"].contains d.caraBayar))
      ["caraBayar"] "Invalid enum value",
    optMaxLen d.nomorKartuPolis 100 ["nomorKartuPolis"]
      "Nomor kartu/polis terlalu panjang. Maksimal 100 karakter.",
    optEnumIssue d.kelasHakRawat ["Kelas 1", "Kelas 2", "Kelas 3"] ["kelasHakRawat"]]

/-- JS truthiness of an optional string field (`undefined` and `""` falsy). -/
def optTruthy : Option String → Bool
  | some s => s ≠ ""
  | none => false

/-- First cross-field refinement: external referrals need the four referral
identification fields. -/
def rujukanRefine (d : PatientFormData) : Bool :=
  if d.caraMasuk = "Rujukan Luar" then
    optTruthy d.asalRujukan && optTruthy d.namaFaskesPerujuk &&
      optTruthy d.nomorSuratRujukan && d.tanggalSuratRujukan.isSome
  else true

/-- Second cross-field refinement: non-self-pay needs a card/policy number. -/
def kartuRefine (d : PatientFormData) : Bool :=
  if d.caraBayar ≠ "Umum-Pribadi" then
    optTruthy d.nomorKartuPolis &&
      decide (0 < (d.nomorKartuPolis.getD "").length)
  else true

/-- Third cross-field refinement: BPJS needs a care-class entitlement
(`data.kelasHakRawat !== undefined`). -/
def bpjsRefine (d : PatientFormData) : Bool :=
  if d.caraBayar = "BPJS Kesehatan" then d.kelasHakRawat.isSome else true

/-- The message attached by the BPJS refinement. -/
def bpjsMessage : String :=
  "Kelas hak rawat belum dipilih. Untuk BPJS Kesehatan, silakan pilih kelas hak rawat pasien."

/-- Issues produced by the three `.refine` clauses (zod runs every
refinement once the base object parses, accumulating their issues). -/
def refineIssues (d : PatientFormData) : List Issue :=
  (if rujukanRefine d then [] else
    [(["asalRujukan"], "Data rujukan lengkap wajib diisi untuk pasien rujukan luar. Pastikan asal rujukan, nama faskes, nomor surat, dan tanggal surat rujukan sudah terisi.")])
  ++ (if kartuRefine d then [] else
    [(["nomorKartuPolis"], "Nomor kartu/polis tidak boleh kosong untuk pembayaran BPJS atau asuransi. Silakan masukkan nomor kartu/polis.")])
  ++ (if bpjsRefine d then [] else [(["kelasHakRawat"], bpjsMessage)])

/-- `admissionSchema.safeParse`: field-level issues abort before the
refinements run; otherwise the refinement issues (if any) are reported. -/
def admissionParse (d : PatientFormData) (nowV : Int) :
    Except (List Issue) PatientFormData :=
  let fi := fieldIssues d nowV
  if fi.isEmpty then
    let ri := refineIssues d
    if ri.isEmpty then .ok d else .error ri
  else .error fi

/-! ## Add-only operation sequences (for the record-number claims) -/

/-- A save function that is never consulted (the runs below attach no
file). -/
def noSave : FileV → Except String String := fun _ => .error "unused"

/-- Run a sequence of `addPatient` calls (form data, generated id, `now`)
with no attached files, returning the final state and the created records in
order. -/
def addRun (year : Nat) (st : PatientState) :
    List (PatientFormData × String × Int) → PatientState × List Patient
  | [] => (st, [])
  | (d, newId, now) :: rest =>
      match addPatient noSave st d none newId now year with
      | (st1, .ok p) =>
          let r := addRun year st1 rest
          (r.1, p :: r.2)
      | (st1, .error _) => addRun year st1 rest

/-- The numeric suffix the generator loop would parse back from a record
number (0 for a string it would skip); used to state the monotonicity
claims. -/
def suffixNum (tag : String) (year : Nat) (s : String) : Int :=
  (suffixVal (pfxChars tag year) s.data).getD 0

/-- The record created by a file-less `addPatient` call on `st`. -/
def newPatientOf (st : PatientState) (d : PatientFormData) (newId : String)
    (now : Int) (year : Nat) : Patient :=
  mkNewPatient d newId (generateNoRM year (st.patients.map (·.noRM)))
    (generateNomorRegistrasi year (st.patients.map (·.nomorRegistrasi))) none now

/-- The state produced by a file-less `addPatient` call on `st`. -/
def afterAdd (st : PatientState) (d : PatientFormData) (newId : String)
    (now : Int) (year : Nat) : PatientState :=
  { st with
    patients := sortByTanggalDesc (st.patients ++ [newPatientOf st d newId now year])
    userAddedPatients := st.userAddedPatients ++ [newPatientOf st d newId now year] }

/-! ## Reachable patient-store states -/

/-- The states reachable from the initial store state through the public
mutating operations, with arbitrary inputs and arbitrary outcomes of the
external effects (file saves, mock-data fetches). -/
inductive Reachable : PatientState → Prop
  | init : Reachable ⟨[], false, false, []⟩
  | load (st : PatientState) (mockResult : Except Unit (List Patient)) :
      Reachable st → Reachable (loadMockData st mockResult)
  | add (st : PatientState) (save : FileV → Except String String)
      (d : PatientFormData) (rujukanFile : Option FileV) (newId : String)
      (now : Int) (year : Nat) :
      Reachable st → Reachable (addPatient save st d rujukanFile newId now year).1
  | update (st : PatientState) (save : FileV → Except String String)
      (id : String) (u : PatientUpdates) (rujukanFile : Option FileV) (now : Int) :
      Reachable st → Reachable (updatePatient save st id u rujukanFile now).1
  | discharge (st : PatientState) (id : String) (tanggalKeluar now : Int) :
      Reachable st → Reachable (dischargePatient st id tanggalKeluar now).1
  | del (st : PatientState) (id : String) :
      Reachable st → Reachable (deletePatient st id).2

/-- The containment invariant of claim C10: every persisted user-added
record also appears, by id, in the merged collection. -/
def userAddedSubset (st : PatientState) : Prop :=
  ∀ u ∈ st.userAddedPatients, ∃ p ∈ st.patients, p.id = u.id

/-! ## Specification-side predicates (stated from the claims, to be compared
with the source-derived functions above) -/

/-- The filter semantics asserted by claim C5: conjunction of every provided
criterion, membership (OR) within each provided list, inclusive
day-granularity date range. -/
def claimFilterPred (filters : PatientFilters) (p : Patient) : Bool :=
  (match filters.status with
    | some s => decide (p.status = s)
    | none => true)
  && (match filters.kelasPerawatan with
    | some ks => ks.contains p.kelasPerawatan
    | none => true)
  && (match filters.caraBayar with
    | some cs => cs.contains p.caraBayar
    | none => true)
  && (match filters.tanggalMasukStart with
    | some s => decide (dayOf s ≤ dayOf p.tanggalJamMasuk)
    | none => true)
  && (match filters.tanggalMasukEnd with
    | some e => decide (dayOf p.tanggalJamMasuk ≤ dayOf e)
    | none => true)

/-- The filter semantics actually implemented: as `claimFilterPred`, except
that a provided-but-empty list imposes no constraint. -/
def amendedFilterPred (filters : PatientFilters) (p : Patient) : Bool :=
  (match filters.status with
    | some s => decide (p.status = s)
    | none => true)
  && (match filters.kelasPerawatan with
    | some ks => ks.isEmpty || ks.contains p.kelasPerawatan
    | none => true)
  && (match filters.caraBayar with
    | some cs => cs.isEmpty || cs.contains p.caraBayar
    | none => true)
  && (match filters.tanggalMasukStart with
    | some s => decide (dayOf s ≤ dayOf p.tanggalJamMasuk)
    | none => true)
  && (match filters.tanggalMasukEnd with
    | some e => decide (dayOf p.tanggalJamMasuk ≤ dayOf e)
    | none => true)

/-- The acceptance condition asserted by claim C9: PDF, JPEG, PNG or GIF, at
most 5MB. -/
def claimAcceptRujukan (f : FileV) : Bool :=
  (["application/pdf", "image/jpeg", "image/png", "image/gif"].contains f.type)
    && decide (f.size ≤ MAX_FILE_SIZE)

/-! ## Concrete sample data for witnesses and counterexamples -/

/-- A form submission that passes every field-level rule. -/
def sampleForm : PatientFormData :=
  { nik := "3201123456789012"
    namaLengkap := "Budi Santoso"
    tempatLahir := none
    tanggalLahir := 100000
    jenisKelamin := "Laki-laki"
    noHandphone := "081234567890"
    alamatDomisili := "Jl. Merdeka No. 1"
    tanggalJamMasuk := 0
    caraMasuk := "IGD"
    dpjp := "dr. Anton"
    diagnosaMasuk := "Demam berdarah"
    keluhanUtama := none
    asalRujukan := none
    namaFaskesPerujuk := none
    nomorSuratRujukan := none
    tanggalSuratRujukan := none
    diagnosaRujukan := none
    fileSuratRujukan := none
    kelasPerawatan := "VIP"
    namaRuangan := "Mawar"
    nomorBed := "B1"
    namaPenanggungJawab := "Siti Aminah"
    hubunganDenganPasien := "Istri"
    noHPPenanggungJawab := "081234567891"
    alamatPenanggungJawab := none
    caraBayar := "Umum-Pribadi"
    nomorKartuPolis := none
    kelasHakRawat := none }

/-- The empty initial store state. -/
def emptyState : PatientState := ⟨[], false, false, []⟩

/-- State after two adds in year 2025 (ids `id-1`, `id-2`). -/
def twoAddsState : PatientState :=
  (addRun 2025 emptyState [(sampleForm, "id-1", 0), (sampleForm, "id-2", 0)]).1

/-- The record numbers generated by those two adds. -/
def twoAddsGens : List Patient :=
  (addRun 2025 emptyState [(sampleForm, "id-1", 0), (sampleForm, "id-2", 0)]).2

/-- The record generated by a third add performed after `id-2` (the record
holding the maximal suffix) has been deleted. -/
def addAfterDeleteGens : List Patient :=
  (addRun 2025 (deletePatient twoAddsState "id-2").2 [(sampleForm, "id-3", 0)]).2

/-- The patient produced by the first sample add (admission timestamp 0). -/
def samplePatient : Patient :=
  mkNewPatient sampleForm "id-1" "RM-2025-00001" "REG-2025-00001" none 0

/-- A one-patient store state. -/
def oneState : PatientState := ⟨[samplePatient], true, false, [samplePatient]⟩

/-- A save function whose underlying storage always fails (quota
exceeded). -/
def failingSave : FileV → Except String String :=
  fun _ => .error "Penyimpanan penuh. Silakan hapus beberapa file lama."

/-- An occupied and a free room. -/
def sampleRoomA : Room :=
  ⟨"room-1", "101", "VIP", 1, 1, RoomStatus.terisi, some "id-1"⟩

/-- A free room sharing the store with `sampleRoomA`. -/
def sampleRoomB : Room :=
  ⟨"room-2", "102", "VIP", 1, 1, RoomStatus.tersedia, none⟩

/-- A two-room store state. -/
def sampleRoomState : RoomState := ⟨[sampleRoomA, sampleRoomB], []⟩

/-- A small GIF file (well under the size cap). -/
def gifFile : FileV := ⟨"rujukan.gif", "image/gif", 1024⟩

/-- A small PDF file. -/
def pdfFile : FileV := ⟨"rujukan.pdf", "application/pdf", 1024⟩

/-- An update payload that tries to overwrite the protected identity
fields. -/
def sneakyUpdates : PatientUpdates :=
  { namaLengkap := some "Taufik"
    tanggalJamMasuk := some 42
    id := some "forged-id"
    noRM := some "RM-9999-99999"
    nomorRegistrasi := some "REG-9999-99999"
    registrationDate := some 555 }

/-- A field-level-valid BPJS submission without a care-class entitlement. -/
def bpjsForm : PatientFormData :=
  { sampleForm with
    caraBayar := "BPJS Kesehatan"
    nomorKartuPolis := some "0001234567890" }

/-! ## Lemmas about the sort model -/

theorem mem_insertSorted (le : α → α → Bool) (a b : α) (l : List α) :
    a ∈ insertSorted le b l ↔ a = b ∨ a ∈ l := by
  induction l with
  | nil => simp [insertSorted]
  | cons x xs ih =>
      by_cases h : le b x = true
      · simp [insertSorted, h]
      · simp only [insertSorted, if_neg h, List.mem_cons, ih]
        tauto

theorem mem_insertionSort (le : α → α → Bool) (a : α) (l : List α) :
    a ∈ insertionSort le l ↔ a ∈ l := by
  induction l with
  | nil => simp [insertionSort]
  | cons x xs ih => simp [insertionSort, mem_insertSorted, ih]

theorem insertionSort_eq_self (le : α → α → Bool) (l : List α)
    (h : List.Chain' (fun a b => le a b = true) l) : insertionSort le l = l := by
  induction l with
  | nil => rfl
  | cons x xs ih =>
      have hxs := ih h.tail
      cases xs with
      | nil => rfl
      | cons y ys =>
          have hxy : le x y = true := List.chain'_cons.mp h |>.1
          simp [insertionSort] at hxs ⊢
          rw [hxs, insertSorted, if_pos hxy]

/-! ## Claim C4: failed referral-file save aborts without mutation -/

/-- Claim C4: if saving the attached referral file fails, `addPatient` and
`updatePatient` surface the error and leave the store state (both the merged
collection and the user-added subset) exactly as it was. -/
theorem addPatient_fileSaveError_noMutation
    (save : FileV → Except String String) (st st2 : PatientState)
    (d : PatientFormData) (id : String) (u : PatientUpdates) (f : FileV)
    (newId : String) (now now2 : Int) (year : Nat) (e : String)
    (h : save f = .error e) :
    addPatient save st d (some f) newId now year
      = (st, .error ("Gagal menyimpan file rujukan. " ++ e))
    ∧ updatePatient save st2 id u (some f) now2
      = (st2, .error ("Gagal menyimpan file rujukan. " ++ e)) := by
  constructor <;> simp [addPatient, updatePatient, saveRujukan, h]

/-- Witness for C4 at a concrete quota-exceeded save failure. -/
theorem addPatient_fileSaveError_noMutation_witness :
    addPatient failingSave emptyState sampleForm (some pdfFile) "id-9" 7 2025
      = (emptyState, .error ("Gagal menyimpan file rujukan. "
          ++ "Penyimpanan penuh. Silakan hapus beberapa file lama."))
    ∧ updatePatient failingSave oneState "id-1" sneakyUpdates (some pdfFile) 7
      = (oneState, .error ("Gagal menyimpan file rujukan. "
          ++ "Penyimpanan penuh. Silakan hapus beberapa file lama.")) :=
  addPatient_fileSaveError_noMutation failingSave emptyState oneState sampleForm
    "id-1" sneakyUpdates pdfFile "id-9" 7 7 2025
    "Penyimpanan penuh. Silakan hapus beberapa file lama." rfl

/-! ## Claim C1: record-number generation -/

theorem digitsVal_append_singleton (xs : List Char) (c : Char) :
    digitsVal (xs ++ [c]) = 10 * digitsVal xs + (c.toNat - 48) := by
  unfold digitsVal
  rw [List.foldl_append]
  rfl

theorem digitsVal_cons_zero (cs : List Char) :
    digitsVal ('0' :: cs) = digitsVal cs := by
  show List.foldl (fun a c => 10 * a + (c.toNat - 48))
    (10 * 0 + ('0'.toNat - 48)) cs = List.foldl _ 0 cs
  norm_num [show '0'.toNat = 48 from rfl]

theorem digitsVal_padStart5 (cs : List Char) :
    digitsVal (padStart5 cs) = digitsVal cs := by
  unfold padStart5
  generalize 5 - cs.length = k
  induction k with
  | zero => rfl
  | succ k ih =>
      rw [List.replicate_succ, List.cons_append, digitsVal_cons_zero]
      exact ih

theorem decDigitsRev_eq_digits : ∀ fuel n : Nat, n ≤ fuel →
    decDigitsRev fuel n = Nat.digits 10 n := by
  intro fuel
  induction fuel with
  | zero =>
      intro n hn
      interval_cases n
      simp [decDigitsRev]
  | succ f ih =>
      intro n hn
      by_cases h0 : n = 0
      · subst h0
        simp [decDigitsRev]
      · rw [decDigitsRev, if_neg h0,
          Nat.digits_def' (by norm_num : (1:Nat) < 10) (Nat.pos_of_ne_zero h0)]
        congr 1
        have hlt : n / 10 < n := Nat.div_lt_self (Nat.pos_of_ne_zero h0) (by norm_num)
        exact ih (n / 10) (by omega)

theorem digitsVal_rev_map_digitChar : ∀ l : List Nat, (∀ d ∈ l, d < 10) →
    digitsVal ((l.reverse).map Nat.digitChar) = Nat.ofDigits 10 l := by
  intro l
  induction l with
  | nil => intro _; rfl
  | cons d ds ih =>
      intro h
      rw [List.reverse_cons, List.map_append, List.map_cons, List.map_nil,
        digitsVal_append_singleton, ih (fun x hx => h x (List.mem_cons_of_mem d hx)),
        Nat.ofDigits_cons]
      have hd10 : d < 10 := h d (List.mem_cons_self d ds)
      have hd : (Nat.digitChar d).toNat - 48 = d := by
        interval_cases d <;> rfl
      rw [hd]
      omega

theorem digitsVal_natToChars (n : Nat) : digitsVal (natToChars n) = n := by
  by_cases h0 : n = 0
  · subst h0
    rfl
  · unfold natToChars
    rw [if_neg h0, decDigitsRev_eq_digits n n le_rfl,
      digitsVal_rev_map_digitChar _ (fun d hd => Nat.digits_lt_base (by norm_num) hd)]
    exact Nat.ofDigits_digits 10 n

theorem natToChars_subset_digits (n : Nat) :
    ∀ c ∈ natToChars n, c ∈ (['0','1','2','3','4','5','6','7','8','9'] : List Char) := by
  intro c hc
  unfold natToChars at hc
  by_cases h0 : n = 0
  · rw [if_pos h0] at hc
    simp only [List.mem_singleton] at hc
    subst hc
    decide
  · rw [if_neg h0, decDigitsRev_eq_digits n n le_rfl] at hc
    rcases List.mem_map.mp hc with ⟨d, hd, rfl⟩
    have hd10 : d < 10 := Nat.digits_lt_base (by norm_num) (List.mem_reverse.mp hd)
    interval_cases d <;> decide

theorem natToChars_ne_nil (n : Nat) : natToChars n ≠ [] := by
  unfold natToChars
  by_cases h0 : n = 0
  · rw [if_pos h0]
    exact List.cons_ne_nil _ _
  · rw [if_neg h0, decDigitsRev_eq_digits n n le_rfl]
    intro h
    rcases List.map_eq_nil_iff.mp h with h2
    rw [List.reverse_eq_nil_iff] at h2
    exact h0 (Nat.digits_eq_nil_iff_eq_zero.mp h2)

theorem padStart5_subset_digits (n : Nat) :
    ∀ c ∈ padStart5 (natToChars n),
      c ∈ (['0','1','2','3','4','5','6','7','8','9'] : List Char) := by
  intro c hc
  unfold padStart5 at hc
  rcases List.mem_append.mp hc with hc | hc
  · rw [List.eq_of_mem_replicate hc]
    decide
  · exact natToChars_subset_digits n c hc

theorem padStart5_ne_nil (n : Nat) : padStart5 (natToChars n) ≠ [] := by
  unfold padStart5
  intro h
  rcases List.append_eq_nil.mp h with ⟨-, h2⟩
  exact natToChars_ne_nil n h2

theorem digit_char_props :
    ∀ c ∈ (['0','1','2','3','4','5','6','7','8','9'] : List Char),
      c.isWhitespace = false ∧ c.isDigit = true ∧ ¬c = '-' ∧ ¬c = '+' := by
  intro c hc
  fin_cases hc <;> exact ⟨by decide, by decide, by decide, by decide⟩

theorem takeWhile_isDigit_eq_self (cs : List Char)
    (h : ∀ c ∈ cs, c.isDigit = true) : cs.takeWhile Char.isDigit = cs := by
  induction cs with
  | nil => rfl
  | cons c rest ih =>
      rw [List.takeWhile_cons, if_pos (h c (List.mem_cons_self c rest))]
      rw [ih (fun x hx => h x (List.mem_cons_of_mem c hx))]

theorem parseIntJS_all_digits (cs : List Char) (hne : cs ≠ [])
    (h : ∀ c ∈ cs, c ∈ (['0','1','2','3','4','5','6','7','8','9'] : List Char)) :
    parseIntJS cs = some ((digitsVal cs : Int)) := by
  cases cs with
  | nil => exact absurd rfl hne
  | cons c rest =>
      have hc := digit_char_props c (h c (List.mem_cons_self c rest))
      have hdw : (c :: rest).dropWhile Char.isWhitespace = c :: rest := by
        rw [List.dropWhile_cons, if_neg]
        simp [hc.1]
      simp only [parseIntJS, hdw]
      rw [if_neg hc.2.2.1, if_neg hc.2.2.2,
        takeWhile_isDigit_eq_self (c :: rest)
          (fun x hx => (digit_char_props x (h x hx)).2.1)]
      rfl

theorem isPrefixOf_append_self (l r : List Char) : l.isPrefixOf (l ++ r) = true := by
  induction l with
  | nil => simp [List.isPrefixOf]
  | cons a l ih => simp [List.isPrefixOf, ih]

theorem le_foldl_maxStep (pfx : List Char) :
    ∀ (l : List (List Char)) (acc : Int),
      acc ≤ l.foldl (fun acc s =>
        match suffixVal pfx s with
        | some n => if n > acc then n else acc
        | none => acc) acc := by
  intro l
  induction l with
  | nil => intro acc; exact le_refl acc
  | cons s rest ih =>
      intro acc
      rw [List.foldl_cons]
      refine le_trans ?_ (ih _)
      rcases suffixVal pfx s with - | n
      · exact le_refl acc
      · dsimp only
        split_ifs with hgt
        · omega
        · exact le_refl acc

theorem maxNumber_nonneg (pfx : List Char) (existing : List (List Char)) :
    0 ≤ maxNumber pfx existing :=
  le_foldl_maxStep pfx existing 0

theorem le_maxNumber_aux (pfx : List Char) :
    ∀ (l : List (List Char)) (acc : Int) (s : List Char) (v : Int), s ∈ l →
      suffixVal pfx s = some v →
      v ≤ l.foldl (fun acc s =>
        match suffixVal pfx s with
        | some n => if n > acc then n else acc
        | none => acc) acc := by
  intro l
  induction l with
  | nil =>
      intro acc s v hs
      cases hs
  | cons x rest ih =>
      intro acc s v hs hv
      rw [List.foldl_cons]
      rcases List.mem_cons.mp hs with hs | hs
      · subst hs
        refine le_trans ?_ (le_foldl_maxStep pfx rest _)
        rw [hv]
        dsimp only
        split_ifs with hgt <;> omega
      · exact ih _ s v hs hv

theorem le_maxNumber (pfx : List Char) (l : List (List Char)) (s : List Char)
    (v : Int) (hs : s ∈ l) (hv : suffixVal pfx s = some v) :
    v ≤ maxNumber pfx l :=
  le_maxNumber_aux pfx l 0 s v hs hv

theorem suffixVal_generateNumber (tag : String) (year : Nat)
    (existing : List String) :
    suffixVal (pfxChars tag year) (generateNumber tag year existing).data
      = some (maxNumber (pfxChars tag year) (existing.map String.data) + 1) := by
  unfold generateNumber suffixVal
  rw [if_pos (isPrefixOf_append_self _ _), List.drop_left]
  rw [parseIntJS_all_digits _ (padStart5_ne_nil _) (padStart5_subset_digits _)]
  rw [digitsVal_padStart5, digitsVal_natToChars]
  have hnn := maxNumber_nonneg (pfxChars tag year) (existing.map String.data)
  congr 1
  push_cast
  rw [Int.toNat_of_nonneg hnn]

theorem addPatient_none (save : FileV → Except String String)
    (st : PatientState) (d : PatientFormData) (newId : String) (now : Int)
    (year : Nat) :
    addPatient save st d none newId now year
      = (afterAdd st d newId now year, .ok (newPatientOf st d newId now year)) := rfl

theorem addRun_cons (year : Nat) (st : PatientState) (d : PatientFormData)
    (newId : String) (now : Int) (rest : List (PatientFormData × String × Int)) :
    addRun year st ((d, newId, now) :: rest)
      = ((addRun year (afterAdd st d newId now year) rest).1,
         newPatientOf st d newId now year
           :: (addRun year (afterAdd st d newId now year) rest).2) := by
  simp only [addRun, addPatient_none]

theorem mem_afterAdd_of_mem (st : PatientState) (d : PatientFormData)
    (newId : String) (now : Int) (year : Nat) (x : Patient)
    (hx : x ∈ st.patients) : x ∈ (afterAdd st d newId now year).patients := by
  simp only [afterAdd, sortByTanggalDesc, mem_insertionSort, List.mem_append]
  exact Or.inl hx

theorem newPatientOf_mem_afterAdd (st : PatientState) (d : PatientFormData)
    (newId : String) (now : Int) (year : Nat) :
    newPatientOf st d newId now year ∈ (afterAdd st d newId now year).patients := by
  simp only [afterAdd, sortByTanggalDesc, mem_insertionSort, List.mem_append]
  exact Or.inr (List.mem_singleton.mpr rfl)

set_option maxHeartbeats 1000000 in
theorem suffixVal_newPatientOf_noRM (st : PatientState) (d : PatientFormData)
    (newId : String) (now : Int) (year : Nat) :
    suffixVal (pfxChars "RM" year) (newPatientOf st d newId now year).noRM.data
      = some (maxNumber (pfxChars "RM" year)
          ((st.patients.map (fun p => p.noRM)).map String.data) + 1) := by
  have h : (newPatientOf st d newId now year).noRM
      = generateNumber "RM" year (st.patients.map (fun p => p.noRM)) := rfl
  have h2 := suffixVal_generateNumber "RM" year (st.patients.map (fun p => p.noRM))
  rw [← h] at h2
  exact h2

set_option maxHeartbeats 1000000 in
theorem suffixVal_newPatientOf_nomorRegistrasi (st : PatientState)
    (d : PatientFormData) (newId : String) (now : Int) (year : Nat) :
    suffixVal (pfxChars "REG" year)
        (newPatientOf st d newId now year).nomorRegistrasi.data
      = some (maxNumber (pfxChars "REG" year)
          ((st.patients.map (fun p => p.nomorRegistrasi)).map String.data) + 1) := by
  have h : (newPatientOf st d newId now year).nomorRegistrasi
      = generateNumber "REG" year (st.patients.map (fun p => p.nomorRegistrasi)) := rfl
  have h2 := suffixVal_generateNumber "REG" year
    (st.patients.map (fun p => p.nomorRegistrasi))
  rw [← h] at h2
  exact h2

theorem addRun_all_gt_noRM (year : Nat) :
    ∀ (inputs : List (PatientFormData × String × Int)) (st : PatientState)
      (x : Patient) (v : Int), x ∈ st.patients →
      suffixVal (pfxChars "RM" year) x.noRM.data = some v →
      ∀ p ∈ (addRun year st inputs).2, v < suffixNum "RM" year p.noRM := by
  intro inputs
  induction inputs with
  | nil =>
      intro st x v _ _ p hp
      simp [addRun] at hp
  | cons input rest ih =>
      rcases input with ⟨d, newId, now⟩
      intro st x v hx hv p hp
      rw [addRun_cons] at hp
      rcases List.mem_cons.mp hp with hp | hp
      · have hle : v ≤ maxNumber (pfxChars "RM" year)
            ((st.patients.map (fun p => p.noRM)).map String.data) := by
          refine le_maxNumber _ _ x.noRM.data v ?_ hv
          exact List.mem_map_of_mem String.data
            (List.mem_map_of_mem (fun p => p.noRM) hx)
        rw [hp]
        unfold suffixNum
        rw [suffixVal_newPatientOf_noRM]
        simp only [Option.getD_some]
        omega
      · exact ih (afterAdd st d newId now year) x v
          (mem_afterAdd_of_mem st d newId now year x hx) hv p hp

theorem addRun_all_gt_nomorRegistrasi (year : Nat) :
    ∀ (inputs : List (PatientFormData × String × Int)) (st : PatientState)
      (x : Patient) (v : Int), x ∈ st.patients →
      suffixVal (pfxChars "REG" year) x.nomorRegistrasi.data = some v →
      ∀ p ∈ (addRun year st inputs).2,
        v < suffixNum "REG" year p.nomorRegistrasi := by
  intro inputs
  induction inputs with
  | nil =>
      intro st x v _ _ p hp
      simp [addRun] at hp
  | cons input rest ih =>
      rcases input with ⟨d, newId, now⟩
      intro st x v hx hv p hp
      rw [addRun_cons] at hp
      rcases List.mem_cons.mp hp with hp | hp
      · have hle : v ≤ maxNumber (pfxChars "REG" year)
            ((st.patients.map (fun p => p.nomorRegistrasi)).map String.data) := by
          refine le_maxNumber _ _ x.nomorRegistrasi.data v ?_ hv
          exact List.mem_map_of_mem String.data
            (List.mem_map_of_mem (fun p => p.nomorRegistrasi) hx)
        rw [hp]
        unfold suffixNum
        rw [suffixVal_newPatientOf_nomorRegistrasi]
        simp only [Option.getD_some]
        omega
      · exact ih (afterAdd st d newId now year) x v
          (mem_afterAdd_of_mem st d newId now year x hx) hv p hp

/-- Claim C1 (amended): over any sequence of `addPatient` calls with no
intervening `deletePatient` in a fixed year, the numeric suffixes of the
generated `noRM` and `nomorRegistrasi` values are strictly increasing and no
suffix — hence no value — is ever assigned twice.  (With an intervening
deletion of the record holding the maximal suffix this fails; see the
counterexample.) -/
theorem addRun_generated_numbers_strictMono (year : Nat) (st : PatientState)
    (inputs : List (PatientFormData × String × Int)) :
    List.Pairwise (· < ·)
        ((addRun year st inputs).2.map (fun p => suffixNum "RM" year p.noRM))
    ∧ List.Pairwise (· ≠ ·) ((addRun year st inputs).2.map (fun p => p.noRM))
    ∧ List.Pairwise (· < ·)
        ((addRun year st inputs).2.map
          (fun p => suffixNum "REG" year p.nomorRegistrasi))
    ∧ List.Pairwise (· ≠ ·)
        ((addRun year st inputs).2.map (fun p => p.nomorRegistrasi)) := by
  have hrm : ∀ (inputs : List (PatientFormData × String × Int)) (st : PatientState),
      List.Pairwise (· < ·)
        ((addRun year st inputs).2.map (fun p => suffixNum "RM" year p.noRM)) := by
    intro inputs
    induction inputs with
    | nil => intro st; simp [addRun]
    | cons input rest ih =>
        rcases input with ⟨d, newId, now⟩
        intro st
        rw [addRun_cons, List.map_cons]
        refine List.Pairwise.cons ?_ (ih (afterAdd st d newId now year))
        intro b hb
        rcases List.mem_map.mp hb with ⟨p, hp, rfl⟩
        have hmax : suffixNum "RM" year (newPatientOf st d newId now year).noRM
            = maxNumber (pfxChars "RM" year)
                ((st.patients.map (fun p => p.noRM)).map String.data) + 1 := by
          unfold suffixNum
          rw [suffixVal_newPatientOf_noRM]
          rfl
        rw [hmax]
        have hgt := addRun_all_gt_noRM year rest (afterAdd st d newId now year)
          (newPatientOf st d newId now year) _
          (newPatientOf_mem_afterAdd st d newId now year)
          (suffixVal_newPatientOf_noRM st d newId now year) p hp
        exact hgt
  have hreg : ∀ (inputs : List (PatientFormData × String × Int)) (st : PatientState),
      List.Pairwise (· < ·)
        ((addRun year st inputs).2.map
          (fun p => suffixNum "REG" year p.nomorRegistrasi)) := by
    intro inputs
    induction inputs with
    | nil => intro st; simp [addRun]
    | cons input rest ih =>
        rcases input with ⟨d, newId, now⟩
        intro st
        rw [addRun_cons, List.map_cons]
        refine List.Pairwise.cons ?_ (ih (afterAdd st d newId now year))
        intro b hb
        rcases List.mem_map.mp hb with ⟨p, hp, rfl⟩
        have hmax : suffixNum "REG" year
              (newPatientOf st d newId now year).nomorRegistrasi
            = maxNumber (pfxChars "REG" year)
                ((st.patients.map (fun p => p.nomorRegistrasi)).map String.data) + 1 := by
          unfold suffixNum
          rw [suffixVal_newPatientOf_nomorRegistrasi]
          rfl
        rw [hmax]
        have hgt := addRun_all_gt_nomorRegistrasi year rest
          (afterAdd st d newId now year) (newPatientOf st d newId now year) _
          (newPatientOf_mem_afterAdd st d newId now year)
          (suffixVal_newPatientOf_nomorRegistrasi st d newId now year) p hp
        exact hgt
  refine ⟨hrm inputs st, ?_, hreg inputs st, ?_⟩
  · have h1 := hrm inputs st
    rw [List.pairwise_map] at h1 ⊢
    refine h1.imp ?_
    intro a b hab habs
    rw [habs] at hab
    exact lt_irrefl _ hab
  · have h1 := hreg inputs st
    rw [List.pairwise_map] at h1 ⊢
    refine h1.imp ?_
    intro a b hab habs
    rw [habs] at hab
    exact lt_irrefl _ hab

/-- Claim C1 counterexample: the add/add/delete/add sequence in a single
year reuses a suffix.  The first two adds generate suffixes 1 and 2; after
deleting the second record (the one holding the maximal suffix), the next
add generates suffix 2 — and the very same `noRM` / `nomorRegistrasi`
strings — again. -/
theorem generated_number_reuse_counterexample :
    twoAddsGens.map (fun p => p.noRM) = ["RM-2025-00001", "RM-2025-00002"]
    ∧ addAfterDeleteGens.map (fun p => p.noRM) = ["RM-2025-00002"]
    ∧ twoAddsGens.map (fun p => p.nomorRegistrasi)
        = ["REG-2025-00001", "REG-2025-00002"]
    ∧ addAfterDeleteGens.map (fun p => p.nomorRegistrasi) = ["REG-2025-00002"] := by
  decide

/-! ## Claim C2: `updatePatient` preserves the protected identity fields -/

theorem applyUpdates_id (p : Patient) (u : PatientUpdates)
    (fileId : Option String) (now : Int) : (applyUpdates p u fileId now).id = p.id := rfl

theorem applyUpdates_noRM (p : Patient) (u : PatientUpdates)
    (fileId : Option String) (now : Int) :
    (applyUpdates p u fileId now).noRM = p.noRM := rfl

theorem applyUpdates_nomorRegistrasi (p : Patient) (u : PatientUpdates)
    (fileId : Option String) (now : Int) :
    (applyUpdates p u fileId now).nomorRegistrasi = p.nomorRegistrasi := rfl

theorem applyUpdates_registrationDate (p : Patient) (u : PatientUpdates)
    (fileId : Option String) (now : Int) :
    (applyUpdates p u fileId now).registrationDate = p.registrationDate := rfl

/-- Claim C2: whatever the partial payload contains (including attempted
overwrites of `id`, `noRM`, `nomorRegistrasi`, `registrationDate`), every
record in the store after `updatePatient`, and the returned record, keeps
the `id`, `noRM`, `nomorRegistrasi` and original registration timestamp of a
record that was already in the store. -/
theorem updatePatient_preserves_identity
    (save : FileV → Except String String) (st : PatientState) (id : String)
    (u : PatientUpdates) (rujukanFile : Option FileV) (now : Int) :
    (∀ q ∈ ((updatePatient save st id u rujukanFile now).1).patients,
      ∃ p ∈ st.patients, q.id = p.id ∧ q.noRM = p.noRM
        ∧ q.nomorRegistrasi = p.nomorRegistrasi
        ∧ q.registrationDate = p.registrationDate)
    ∧ (∀ q, (updatePatient save st id u rujukanFile now).2 = .ok (some q) →
      ∃ p ∈ st.patients, p.id = id ∧ q.id = p.id ∧ q.noRM = p.noRM
        ∧ q.nomorRegistrasi = p.nomorRegistrasi
        ∧ q.registrationDate = p.registrationDate) := by
  rcases hs : saveRujukan save rujukanFile with e | fileId
  · constructor
    · intro q hq
      simp only [updatePatient, hs] at hq
      exact ⟨q, hq, rfl, rfl, rfl, rfl⟩
    · intro q hq
      simp [updatePatient, hs] at hq
  · constructor
    · intro q hq
      simp only [updatePatient, hs] at hq
      have hq1 : q ∈ st.patients.map
          (fun p => if p.id = id then applyUpdates p u fileId now else p) := by
        by_cases ht : u.tanggalJamMasuk.isSome <;>
          simp only [ht, if_true, if_false, Bool.false_eq_true,
            sortByTanggalDesc, mem_insertionSort] at hq <;> exact hq
      rcases List.mem_map.mp hq1 with ⟨p, hp, hpq⟩
      by_cases hid : p.id = id
      · subst hpq
        refine ⟨p, hp, ?_⟩
        simp [hid, applyUpdates_id, applyUpdates_noRM,
          applyUpdates_nomorRegistrasi, applyUpdates_registrationDate]
      · subst hpq
        refine ⟨p, hp, ?_⟩
        simp [hid]
    · intro q hq
      simp only [updatePatient, hs, Except.ok.injEq] at hq
      rcases Option.map_eq_some'.mp hq with ⟨lm, hlm, hq2⟩
      have hmem : lm ∈ st.patients.filter (fun p => p.id = id) :=
        List.mem_of_mem_getLast? hlm
      rcases List.mem_filter.mp hmem with ⟨hlmem, hlmid⟩
      refine ⟨lm, hlmem, by simpa using hlmid, ?_⟩
      subst hq2
      exact ⟨rfl, rfl, rfl, rfl⟩

/-- Witness for C2: the identity fields of the single stored record survive
an update that tries to overwrite all of them. -/
theorem updatePatient_preserves_identity_witness :
    ∃ p ∈ oneState.patients,
      (applyUpdates samplePatient sneakyUpdates none 9).id = p.id
        ∧ (applyUpdates samplePatient sneakyUpdates none 9).noRM = p.noRM
        ∧ (applyUpdates samplePatient sneakyUpdates none 9).nomorRegistrasi
            = p.nomorRegistrasi
        ∧ (applyUpdates samplePatient sneakyUpdates none 9).registrationDate
            = p.registrationDate :=
  (updatePatient_preserves_identity noSave oneState "id-1" sneakyUpdates none 9).1
    (applyUpdates samplePatient sneakyUpdates none 9) (by decide)

/-! ## Claim C3: `deleteRoom` -/

theorem find?_key_unique {α β : Type} [DecidableEq β] (f : α → β) (l : List α)
    (r : α) (v : β) (hnd : (l.map f).Nodup) (hr : r ∈ l) (hv : f r = v) :
    l.find? (fun x => f x = v) = some r := by
  induction l with
  | nil => cases hr
  | cons x xs ih =>
      have hnd1 : (f x :: xs.map f).Nodup := by rw [List.map_cons] at hnd; exact hnd
      rcases List.nodup_cons.mp hnd1 with ⟨hx, hxs⟩
      rcases List.mem_cons.mp hr with hr | hr
      · subst hr
        exact List.find?_cons_of_pos xs (by simp [hv])
      · have hfx : ¬f x = v := by
          intro hfxv
          exact hx (hfxv ▸ hv ▸ List.mem_map_of_mem f hr)
        rw [List.find?_cons_of_neg xs (by simp [hfx])]
        exact ih hxs hr

theorem perm_cons_filter {α β : Type} [DecidableEq β] (f : α → β) (l : List α)
    (r : α) (v : β) (hnd : (l.map f).Nodup) (hr : r ∈ l) (hv : f r = v) :
    l.Perm (r :: l.filter (fun x => ¬f x = v)) := by
  induction l with
  | nil => cases hr
  | cons x xs ih =>
      have hnd1 : (f x :: xs.map f).Nodup := by rw [List.map_cons] at hnd; exact hnd
      rcases List.nodup_cons.mp hnd1 with ⟨hx, hxs⟩
      rcases List.mem_cons.mp hr with hr | hr
      · subst hr
        have hall : xs.filter (fun y => ¬f y = v) = xs := by
          rw [List.filter_eq_self]
          intro y hy
          simp only [decide_eq_true_eq]
          intro hyv
          have hmem : f r ∈ List.map f xs := by
            rw [hv, ← hyv]
            exact List.mem_map_of_mem f hy
          exact hx hmem
        have h1 : (r :: xs).filter (fun y => ¬f y = v) = xs := by
          rw [List.filter_cons, if_neg (by simp [hv]), hall]
        rw [h1]
      · have hfx : ¬f x = v := by
          intro hfxv
          have hmem : f x ∈ List.map f xs := by
            rw [hfxv, ← hv]
            exact List.mem_map_of_mem f hr
          exact hx hmem
        have step : (x :: xs).filter (fun y => ¬f y = v)
            = x :: xs.filter (fun y => ¬f y = v) := by
          rw [List.filter_cons, if_pos (by simp [hfx])]
        rw [step]
        exact ((ih hxs hr).cons x).trans (List.Perm.swap r x _)

/-- Claim C3: with distinct room ids, `deleteRoom` on an occupied
(`'Terisi'`) room returns `false` and leaves the whole store untouched,
while on an existing room of any other status it returns `true` and removes
exactly that one record, leaving every other room in place. -/
theorem deleteRoom_spec (st : RoomState) (id : String)
    (hnd : (st.rooms.map (·.id)).Nodup) :
    (∀ r ∈ st.rooms, r.id = id → r.status = RoomStatus.terisi →
      deleteRoom st id = (false, st))
    ∧ (∀ r ∈ st.rooms, r.id = id → r.status ≠ RoomStatus.terisi →
      (deleteRoom st id).1 = true
        ∧ st.rooms.Perm (r :: (deleteRoom st id).2.rooms)
        ∧ (deleteRoom st id).2.rooms = st.rooms.filter (fun x => ¬x.id = id)) := by
  constructor
  · intro r hr hrid hterisi
    have hfind : st.rooms.find? (fun x => x.id = id) = some r :=
      find?_key_unique (·.id) st.rooms r id hnd hr hrid
    have hcant : canDeleteRoom st id = false := by
      simp [canDeleteRoom, getRoomById, hfind, hterisi]
    simp [deleteRoom, hfind, hcant]
  · intro r hr hrid hfree
    have hfind : st.rooms.find? (fun x => x.id = id) = some r :=
      find?_key_unique (·.id) st.rooms r id hnd hr hrid
    have hcan : canDeleteRoom st id = true := by
      simp [canDeleteRoom, getRoomById, hfind, hfree]
    refine ⟨by simp [deleteRoom, hfind, hcan], ?_, by simp [deleteRoom, hfind, hcan]⟩
    have := perm_cons_filter (·.id) st.rooms r id hnd hr hrid
    simpa [deleteRoom, hfind, hcan] using this

/-- Witness for C3: the occupied room `room-1` cannot be deleted; the free
room `room-2` is removed exactly. -/
theorem deleteRoom_spec_witness :
    deleteRoom sampleRoomState "room-1" = (false, sampleRoomState)
    ∧ (deleteRoom sampleRoomState "room-2").1 = true
    ∧ sampleRoomState.rooms.Perm
        (sampleRoomB :: (deleteRoom sampleRoomState "room-2").2.rooms) :=
  ⟨(deleteRoom_spec sampleRoomState "room-1" (by decide)).1 sampleRoomA
      (by decide) rfl rfl,
    ((deleteRoom_spec sampleRoomState "room-2" (by decide)).2 sampleRoomB
      (by decide) rfl (by decide)).1,
    ((deleteRoom_spec sampleRoomState "room-2" (by decide)).2 sampleRoomB
      (by decide) rfl (by decide)).2.1⟩

/-! ## Claim C6: admission trend buckets -/

theorem startOfDay_le_of_dayOf_eq (t s : Int) (i : Nat)
    (h : dayOf t = dayOf s + (i : Int)) : msPerDay * dayOf s ≤ t := by
  unfold dayOf msPerDay at *
  omega

theorem bumpTrend_length (m : List TrendEntry) (day : Int) (cm : String) :
    (bumpTrend m day cm).length = m.length := by
  simp [bumpTrend]

theorem bumpTrend_map_date (m : List TrendEntry) (day : Int) (cm : String) :
    (bumpTrend m day cm).map (fun e => e.date) = m.map (fun e => e.date) := by
  unfold bumpTrend
  rw [List.map_map]
  apply List.map_congr_left
  intro e _
  by_cases h : e.date = day <;> simp [h]

theorem foldl_bumpTrend_length :
    ∀ (l : List Patient) (m : List TrendEntry),
      (l.foldl (fun acc p =>
        bumpTrend acc (dayOf p.tanggalJamMasuk) p.caraMasuk) m).length
        = m.length := by
  intro l
  induction l with
  | nil => intro m; rfl
  | cons p rest ih =>
      intro m
      rw [List.foldl_cons, ih, bumpTrend_length]

theorem foldl_bumpTrend_map_date :
    ∀ (l : List Patient) (m : List TrendEntry),
      (l.foldl (fun acc p =>
        bumpTrend acc (dayOf p.tanggalJamMasuk) p.caraMasuk) m).map (fun e => e.date)
        = m.map (fun e => e.date) := by
  intro l
  induction l with
  | nil => intro m; rfl
  | cons p rest ih =>
      intro m
      rw [List.foldl_cons, ih, bumpTrend_map_date]

theorem bumpTrend_getElem (m : List TrendEntry) (day : Int) (cm : String)
    (i : Nat) (hi : i < m.length) (hj : i < (bumpTrend m day cm).length) :
    (bumpTrend m day cm)[i]
      = if m[i].date = day
        then TrendEntry.mk m[i].date (m[i].count + 1) (incrAssoc m[i].byCaraMasuk cm)
        else m[i] := by
  unfold bumpTrend
  rw [List.getElem_map]

theorem foldl_bumpTrend_getElem :
    ∀ (l : List Patient) (m : List TrendEntry) (i : Nat)
      (hi : i < m.length)
      (hj : i < (l.foldl (fun acc p =>
        bumpTrend acc (dayOf p.tanggalJamMasuk) p.caraMasuk) m).length),
      (l.foldl (fun acc p =>
          bumpTrend acc (dayOf p.tanggalJamMasuk) p.caraMasuk) m)[i].date
          = m[i].date
      ∧ (l.foldl (fun acc p =>
          bumpTrend acc (dayOf p.tanggalJamMasuk) p.caraMasuk) m)[i].count
          = m[i].count
            + l.countP (fun p => dayOf p.tanggalJamMasuk = m[i].date) := by
  intro l
  induction l with
  | nil =>
      intro m i hi hj
      exact ⟨rfl, by simp⟩
  | cons p rest ih =>
      intro m i hi hj
      simp only [List.foldl_cons] at hj ⊢
      have hib : i < (bumpTrend m (dayOf p.tanggalJamMasuk) p.caraMasuk).length := by
        rw [bumpTrend_length]
        exact hi
      obtain ⟨hd, hc⟩ := ih (bumpTrend m (dayOf p.tanggalJamMasuk) p.caraMasuk) i hib hj
      have hbg := bumpTrend_getElem m (dayOf p.tanggalJamMasuk) p.caraMasuk i hi hib
      have hedate : (bumpTrend m (dayOf p.tanggalJamMasuk) p.caraMasuk)[i].date
          = m[i].date := by
        rw [hbg]
        by_cases hcase : m[i].date = dayOf p.tanggalJamMasuk <;> simp [hcase]
      have hecount : (bumpTrend m (dayOf p.tanggalJamMasuk) p.caraMasuk)[i].count
          = m[i].count + (if dayOf p.tanggalJamMasuk = m[i].date then 1 else 0) := by
        rw [hbg]
        by_cases hcase : m[i].date = dayOf p.tanggalJamMasuk
        · rw [if_pos hcase, if_pos hcase.symm]
        · rw [if_neg hcase, if_neg (fun h => hcase h.symm)]
          omega
      constructor
      · rw [hd, hedate]
      · rw [hc, hecount, hedate, List.countP_cons]
        simp only [decide_eq_true_eq]
        omega

/-- Claim C6: `getAdmissionTrend` over any `days` window returns exactly
`days` buckets — one per calendar day of the window, in ascending date
order — and each bucket's count is the number of admissions on that day
(zero for days with no admissions). -/
theorem getAdmissionTrend_spec (st : PatientState) (now : Int) (days : Nat) :
    (getAdmissionTrend st now days).length = days
    ∧ (getAdmissionTrend st now days).map (fun e => e.date)
        = (List.range days).map
            (fun i : Nat => dayOf (now - msPerDay * days) + (i : Int))
    ∧ ∀ e ∈ getAdmissionTrend st now days,
        e.count = st.patients.countP
          (fun p => dayOf p.tanggalJamMasuk = e.date) := by
  have hinit_dates :
      ((List.range days).map (fun i : Nat =>
        TrendEntry.mk (dayOf (now - msPerDay * days) + (i : Int)) 0 [])).map
          (fun e => e.date)
      = (List.range days).map
          (fun i : Nat => dayOf (now - msPerDay * days) + (i : Int)) := by
    rw [List.map_map]
    rfl
  have hfilled_dates :
      ((st.patients.filter
          (fun p => msPerDay * dayOf (now - msPerDay * days) ≤ p.tanggalJamMasuk)).foldl
        (fun acc p => bumpTrend acc (dayOf p.tanggalJamMasuk) p.caraMasuk)
        ((List.range days).map (fun i : Nat =>
          TrendEntry.mk (dayOf (now - msPerDay * days) + (i : Int)) 0 []))).map
          (fun e => e.date)
      = (List.range days).map
          (fun i : Nat => dayOf (now - msPerDay * days) + (i : Int)) := by
    rw [foldl_bumpTrend_map_date, hinit_dates]
  have hchain : List.Chain'
      (fun a b : TrendEntry => (decide (a.date ≤ b.date)) = true)
      ((st.patients.filter
          (fun p => msPerDay * dayOf (now - msPerDay * days) ≤ p.tanggalJamMasuk)).foldl
        (fun acc p => bumpTrend acc (dayOf p.tanggalJamMasuk) p.caraMasuk)
        ((List.range days).map (fun i : Nat =>
          TrendEntry.mk (dayOf (now - msPerDay * days) + (i : Int)) 0 []))) := by
    have hlt : List.Chain' (fun a b : Int => a < b)
        ((List.range days).map
          (fun i : Nat => dayOf (now - msPerDay * days) + (i : Int))) := by
      refine List.Pairwise.chain' ?_
      rw [List.pairwise_map]
      refine (List.pairwise_lt_range days).imp ?_
      intro a b hab
      omega
    rw [← hfilled_dates] at hlt
    rw [List.chain'_map] at hlt
    refine hlt.imp ?_
    intro a b hab
    simp only [decide_eq_true_eq]
    omega
  have hsort :
      getAdmissionTrend st now days
        = (st.patients.filter
            (fun p => msPerDay * dayOf (now - msPerDay * days) ≤ p.tanggalJamMasuk)).foldl
          (fun acc p => bumpTrend acc (dayOf p.tanggalJamMasuk) p.caraMasuk)
          ((List.range days).map (fun i : Nat =>
            TrendEntry.mk (dayOf (now - msPerDay * days) + (i : Int)) 0 [])) := by
    unfold getAdmissionTrend
    exact insertionSort_eq_self _ _ hchain
  refine ⟨?_, ?_, ?_⟩
  · rw [hsort, foldl_bumpTrend_length, List.length_map, List.length_range]
  · rw [hsort, hfilled_dates]
  · intro e he
    rw [hsort] at he
    rcases List.mem_iff_getElem.mp he with ⟨i, hj, hei⟩
    have hi : i < ((List.range days).map (fun i : Nat =>
        TrendEntry.mk (dayOf (now - msPerDay * days) + (i : Int)) 0 [])).length := by
      rw [← foldl_bumpTrend_length (st.patients.filter
        (fun p => msPerDay * dayOf (now - msPerDay * days) ≤ p.tanggalJamMasuk))]
      exact hj
    obtain ⟨hd, hc⟩ := foldl_bumpTrend_getElem
      (st.patients.filter
        (fun p => msPerDay * dayOf (now - msPerDay * days) ≤ p.tanggalJamMasuk))
      ((List.range days).map (fun i : Nat =>
        TrendEntry.mk (dayOf (now - msPerDay * days) + (i : Int)) 0 [])) i hi hj
    have hiR : i < (List.range days).length := by
      rw [List.length_map] at hi
      exact hi
    have hinit_i : ((List.range days).map (fun i : Nat =>
        TrendEntry.mk (dayOf (now - msPerDay * days) + (i : Int)) 0 []))[i]
        = TrendEntry.mk (dayOf (now - msPerDay * days) + (i : Int)) 0 [] := by
      rw [List.getElem_map]
      rw [List.getElem_range]
    rw [hinit_i] at hd hc
    dsimp only at hd hc
    simp only [Nat.zero_add] at hc
    rw [← hei, hc, List.countP_filter, hd]
    apply List.countP_congr
    intro p _
    simp only [Bool.and_eq_true, decide_eq_true_eq]
    constructor
    · rintro ⟨h1, -⟩
      exact h1
    · intro h1
      exact ⟨h1, startOfDay_le_of_dayOf_eq p.tanggalJamMasuk
        (now - msPerDay * days) i h1⟩

/-- Witness for C6: in the one-patient store, with `now` at the end of a
7-day window starting at epoch, the day-0 bucket counts exactly the one
admission. -/
theorem getAdmissionTrend_spec_witness :
    (TrendEntry.mk 0 1 [("IGD", 1)]).count
      = oneState.patients.countP
        (fun p => dayOf p.tanggalJamMasuk = (TrendEntry.mk 0 1 [("IGD", 1)]).date) :=
  (getAdmissionTrend_spec oneState (7 * 86400000) 7).2.2
    (TrendEntry.mk 0 1 [("IGD", 1)]) (by decide)

/-! ## Claim C7: bed occupancy by class -/

theorem lookupCount_incrAssoc (m : List (String × Nat)) (k' k : String) :
    lookupCount (incrAssoc m k') k
      = lookupCount m k + (if k' = k then 1 else 0) := by
  induction m with
  | nil => by_cases h : k' = k <;> simp [incrAssoc, lookupCount, h]
  | cons e rest ih =>
      rcases e with ⟨ek, ev⟩
      by_cases h1 : ek = k'
      · subst h1
        by_cases h2 : ek = k <;> simp [incrAssoc, lookupCount, h2]
      · by_cases h2 : ek = k
        · subst h2
          have hkk : ¬k' = ek := fun hk => h1 hk.symm
          simp [incrAssoc, lookupCount, h1, hkk]
        · simp [incrAssoc, lookupCount, h1, h2, ih]

theorem lookupCount_foldl_incr (l : List Patient) (m : List (String × Nat))
    (k : String) :
    lookupCount (l.foldl (fun acc p => incrAssoc acc p.kelasPerawatan) m) k
      = lookupCount m k + l.countP (fun p => p.kelasPerawatan = k) := by
  induction l generalizing m with
  | nil => simp
  | cons p rest ih =>
      simp only [List.foldl_cons, List.countP_cons]
      rw [ih, lookupCount_incrAssoc]
      by_cases h : p.kelasPerawatan = k
      · simp [h]
        omega
      · simp [h]

/-- Claim C7: for each care class the report counts as occupied exactly the
active patients of that class, reports `total = max(occupied,
ceil(occupied·1.5))` for a positive count and `10` for an empty class, and
`percentage = round(occupied / total · 100)`. -/
theorem getBedOccupancyByClass_spec (st : PatientState) :
    getBedOccupancyByClass st = careClasses.map (fun kelas =>
      let occupied := (st.patients.filter
        (fun p => p.status = PatientStatus.aktif ∧ p.kelasPerawatan = kelas)).length
      let total := if occupied = 0 then 10 else max occupied ((3 * occupied + 1) / 2)
      ⟨kelas, total, occupied, (200 * occupied + total) / (2 * total)⟩) := by
  unfold getBedOccupancyByClass
  apply List.map_congr_left
  intro kelas _
  have hocc : lookupCount
      ((st.patients.filter (fun p => p.status = PatientStatus.aktif)).foldl
        (fun acc p => incrAssoc acc p.kelasPerawatan) []) kelas
      = (st.patients.filter
        (fun p => p.status = PatientStatus.aktif ∧ p.kelasPerawatan = kelas)).length := by
    rw [lookupCount_foldl_incr, List.countP_filter, ← List.countP_eq_length_filter]
    simp only [lookupCount, Nat.zero_add]
    apply List.countP_congr
    intro p _
    simp only [Bool.and_eq_true, decide_eq_true_eq]
    tauto
  simp only [hocc]
  generalize (st.patients.filter
    (fun p => p.status = PatientStatus.aktif ∧ p.kelasPerawatan = kelas)).length = occ
  by_cases h : occ = 0
  · subst h
    simp
  · have hmax : ¬max occ ((3 * occ + 1) / 2) = 0 := by
      simp only [Nat.max_eq_zero_iff]
      omega
    have htot : 0 < max occ ((3 * occ + 1) / 2) := Nat.pos_of_ne_zero hmax
    simp [hmax, h, htot]

/-- Witness-style corollary for C7 at a concrete store (one active VIP
patient): VIP reports occupied 1, total 2, percentage 50. -/
theorem getBedOccupancyByClass_spec_witness :
    getBedOccupancyByClass oneState = careClasses.map (fun kelas =>
      let occupied := (oneState.patients.filter
        (fun p => p.status = PatientStatus.aktif ∧ p.kelasPerawatan = kelas)).length
      let total := if occupied = 0 then 10 else max occupied ((3 * occupied + 1) / 2)
      ⟨kelas, total, occupied, (200 * occupied + total) / (2 * total)⟩) :=
  getBedOccupancyByClass_spec oneState

/-! ## Claim C5: `filterPatients` -/

theorem startOfDay_le_startOfDay (s t : Int) :
    startOfDay s ≤ startOfDay t ↔ dayOf s ≤ dayOf t := by
  unfold startOfDay dayOf msPerDay
  omega

theorem startOfDay_le_endOfDay (t e : Int) :
    startOfDay t ≤ endOfDay e ↔ dayOf t ≤ dayOf e := by
  unfold startOfDay endOfDay dayOf msPerDay
  omega

/-- Claim C5 counterexample: with a provided-but-empty care-class list the
code ignores the criterion and returns the patient, while the claimed
conjunction–of–disjunctions semantics returns nothing. -/
theorem filterPatients_emptyList_counterexample :
    filterPatients oneState ⟨none, some [], none, none, none⟩ = [samplePatient]
    ∧ oneState.patients.filter
        (claimFilterPred ⟨none, some [], none, none, none⟩) = [] := by
  constructor <;> rfl

/-- Claim C5 (amended): `filterPatients` returns exactly the patients
satisfying the conjunction of all provided criteria — membership (OR) within
each provided non-empty list, inclusive day-granularity date range — with a
provided-but-empty list imposing no constraint; in particular the
`status = Aktif`, `kelasPerawatan ∈ {VIP, ICU}` query returns exactly the
active VIP-or-ICU patients. -/
theorem filterPatients_spec (st : PatientState) (filters : PatientFilters) :
    filterPatients st filters = st.patients.filter (amendedFilterPred filters)
    ∧ filterPatients st ⟨some PatientStatus.aktif, some ["VIP", "ICU"], none, none, none⟩
      = st.patients.filter (fun p => p.status = PatientStatus.aktif
          ∧ (p.kelasPerawatan = "VIP" ∨ p.kelasPerawatan = "ICU")) := by
  constructor
  · rcases filters with ⟨os, oks, ocs, ost, oen⟩
    rcases os with - | s <;>
      rcases oks with - | (- | ⟨k, ks⟩) <;>
      rcases ocs with - | (- | ⟨c, cs⟩) <;>
      rcases ost with - | ts <;>
      rcases oen with - | te <;>
      · simp only [filterPatients, List.length_nil, List.length_cons,
          Nat.zero_lt_succ, Nat.lt_irrefl, if_true, if_false, List.filter_filter]
        first
        | (apply Eq.symm
           rw [List.filter_eq_self]
           intro p _
           simp [amendedFilterPred])
        | (apply List.filter_congr
           intro p _
           rw [Bool.eq_iff_iff]
           simp only [amendedFilterPred, Bool.and_eq_true, decide_eq_true_eq,
             startOfDay_le_startOfDay, startOfDay_le_endOfDay,
             List.isEmpty_cons, Bool.false_or, Bool.and_true, Bool.true_and,
             List.length_cons, Nat.zero_lt_succ, if_true]
           try simp
           try tauto)
  · simp only [filterPatients, List.filter_filter]
    apply Eq.symm
    apply List.filter_congr
    intro p _
    rw [Bool.eq_iff_iff]
    simp only [Bool.and_eq_true, decide_eq_true_eq, List.contains_cons,
      List.length_cons, Nat.zero_lt_succ, if_true]
    constructor
    · rintro ⟨hst, hk⟩
      refine ⟨?_, hst⟩
      simpa using hk
    · rintro ⟨hst, hk⟩
      refine ⟨hk, ?_⟩
      simpa using hst

/-! ## Claim C8: BPJS care-class entitlement validation -/

/-- Claim C8: a payload that passes every field-level rule and pays by BPJS
but lacks `kelasHakRawat` fails schema validation with an issue attached to
the `kelasHakRawat` path, while the BPJS cross-field rule passes whenever
`kelasHakRawat` is present. -/
theorem admissionParse_bpjs (d : PatientFormData) (nowV : Int)
    (hf : fieldIssues d nowV = []) (hb : d.caraBayar = "BPJS Kesehatan") :
    (d.kelasHakRawat = none →
      ∃ issues, admissionParse d nowV = .error issues
        ∧ (["kelasHakRawat"], bpjsMessage) ∈ issues)
    ∧ (d.kelasHakRawat.isSome = true → bpjsRefine d = true) := by
  constructor
  · intro hk
    have hbp : bpjsRefine d = false := by simp [bpjsRefine, hb, hk]
    have hmem : (["kelasHakRawat"], bpjsMessage) ∈ refineIssues d := by
      simp [refineIssues, hbp]
    have hne : ¬(refineIssues d).isEmpty = true := by
      intro he
      rw [List.isEmpty_iff] at he
      rw [he] at hmem
      cases hmem
    refine ⟨refineIssues d, ?_, hmem⟩
    simp [admissionParse, hf, hne]
  · intro hk
    simp [bpjsRefine, hb, hk]

/-- Witness for C8 at a concrete field-level-valid BPJS submission. -/
theorem admissionParse_bpjs_witness :
    ∃ issues, admissionParse bpjsForm 1000000 = .error issues
      ∧ (["kelasHakRawat"], bpjsMessage) ∈ issues :=
  (admissionParse_bpjs bpjsForm 1000000 (by decide) rfl).1 rfl

/-! ## Claim C10: the user-added subset is contained in the merged view -/

/-- Claim C10: in every state reachable through the public operations, each
record of the persisted user-added subset also appears, with the same id, in
the merged collection. -/
theorem reachable_userAddedSubset (st : PatientState) (h : Reachable st) :
    userAddedSubset st := by
  induction h with
  | init =>
      intro u hu
      cases hu
  | load st mockResult hr ih =>
      unfold loadMockData
      split_ifs with h1 h2
      · exact ih
      · exact ih
      · rcases mockResult with e | mockPatients
        · intro u hu
          exact ⟨u, hu, rfl⟩
        · intro u hu
          refine ⟨u, ?_, rfl⟩
          simp only [sortByTanggalDesc, mem_insertionSort, List.mem_append]
          exact Or.inr hu
  | add st save d rujukanFile newId now year hr ih =>
      rcases hs : saveRujukan save rujukanFile with e | fileId
      · have heq : (addPatient save st d rujukanFile newId now year).1 = st := by
          simp [addPatient, hs]
        rw [heq]
        exact ih
      · intro u hu
        simp only [addPatient, hs, List.mem_append] at hu ⊢
        rcases hu with hu | hu
        · rcases ih u hu with ⟨p, hp, hpid⟩
          refine ⟨p, ?_, hpid⟩
          simp only [sortByTanggalDesc, mem_insertionSort, List.mem_append]
          exact Or.inl hp
        · have h2 := List.mem_singleton.mp hu
          refine ⟨u, ?_, rfl⟩
          simp only [sortByTanggalDesc, mem_insertionSort, List.mem_append]
          refine Or.inr ?_
          rw [h2]
          exact List.mem_singleton.mpr rfl
  | update st save id u rujukanFile now hr ih =>
      rcases hs : saveRujukan save rujukanFile with e | fileId
      · have heq : (updatePatient save st id u rujukanFile now).1 = st := by
          simp [updatePatient, hs]
        rw [heq]
        exact ih
      · have himg : ∀ w ∈ st.patients,
            ∃ q ∈ (updatePatient save st id u rujukanFile now).1.patients,
              q.id = w.id := by
          intro w hw
          refine ⟨if w.id = id then applyUpdates w u fileId now else w, ?_, ?_⟩
          · have hmapped : (if w.id = id then applyUpdates w u fileId now else w)
                ∈ st.patients.map
                  (fun p => if p.id = id then applyUpdates p u fileId now else p) := by
              rcases List.mem_map.mpr ⟨w, hw, rfl⟩ with hm
              exact hm
            simp only [updatePatient, hs]
            by_cases ht : u.tanggalJamMasuk.isSome <;>
              simp only [ht, if_true, if_false, Bool.false_eq_true,
                sortByTanggalDesc, mem_insertionSort] <;>
              exact hmapped
          · by_cases hid : w.id = id <;> simp [hid, applyUpdates_id]
        intro x hx
        simp only [updatePatient, hs] at hx
        rcases List.mem_map.mp hx with ⟨p, hp, hxp⟩
        by_cases hpid : p.id = id
        · rcases hlast : (st.patients.filter (fun q => q.id = id)).getLast? with - | lm
          · have hx2 : x = p := by
              rw [← hxp]
              simp [hpid, hlast]
            rcases ih p hp with ⟨w, hw, hwid⟩
            rcases himg w hw with ⟨q, hq, hqid⟩
            refine ⟨q, hq, ?_⟩
            rw [hx2]
            exact hqid.trans hwid
          · have hlmem : lm ∈ st.patients.filter (fun q => q.id = id) :=
              List.mem_of_mem_getLast? hlast
            rcases List.mem_filter.mp hlmem with ⟨hlmem2, hlmid⟩
            have hx2 : x = applyUpdates lm u fileId now := by
              rw [← hxp]
              simp [hpid, hlast]
            rcases himg lm hlmem2 with ⟨q, hq, hqid⟩
            refine ⟨q, hq, ?_⟩
            rw [hx2, applyUpdates_id]
            exact hqid
        · have hx2 : x = p := by
            rw [← hxp]
            simp [hpid]
          rcases ih p hp with ⟨w, hw, hwid⟩
          rcases himg w hw with ⟨q, hq, hqid⟩
          refine ⟨q, hq, ?_⟩
          rw [hx2]
          exact hqid.trans hwid
  | discharge st id tanggalKeluar now hr ih =>
      intro x hx
      simp only [dischargePatient] at hx ⊢
      rcases ih x hx with ⟨w, hw, hwid⟩
      refine ⟨if w.id = id then
        { w with status := PatientStatus.keluar,
                 tanggalKeluar := some tanggalKeluar, updatedAt := now } else w,
        List.mem_map.mpr ⟨w, hw, rfl⟩, ?_⟩
      by_cases hid : w.id = id
      · rw [if_pos hid]
        exact hwid
      · rw [if_neg hid]
        exact hwid
  | del st id hr ih =>
      rcases hfind : st.patients.find? (fun p => p.id = id) with - | r
      · have heq : (deletePatient st id).2 = st := by
          simp [deletePatient, hfind]
        rw [heq]
        exact ih
      · intro x hx
        simp only [deletePatient, hfind] at hx ⊢
        rcases List.mem_filter.mp hx with ⟨hx2, hxid⟩
        rcases ih x hx2 with ⟨w, hw, hwid⟩
        refine ⟨w, List.mem_filter.mpr ⟨hw, ?_⟩, hwid⟩
        simp only [decide_eq_true_eq] at hxid ⊢
        rw [hwid]
        exact hxid

/-- Witness for C10: the invariant holds in the concrete state reached by
one `addPatient` from the initial state. -/
theorem reachable_userAddedSubset_witness :
    userAddedSubset (addPatient noSave emptyState sampleForm none "id-1" 0 2025).1 :=
  reachable_userAddedSubset _
    (Reachable.add emptyState noSave sampleForm none "id-1" 0 2025 Reachable.init)

/-! ## Claim C9: referral-file acceptance -/

/-- Claim C9 counterexample: a small GIF satisfies the claimed acceptance
condition (PDF/JPEG/PNG/GIF, at most 5MB) but is rejected by
`validateRujukanFile`, so it never reaches storage. -/
theorem validateRujukanFile_gif_counterexample :
    claimAcceptRujukan gifFile = true
    ∧ (validateRujukanFile gifFile).valid = false
    ∧ handleFile gifFile = none := by decide

/-- Claim C9 (amended): an uploaded referral file is accepted exactly when
its MIME type is `application/pdf`, `image/jpeg`, `image/jpg` or `image/png`
(GIF is not accepted) and its size is at most 5MB; a rejected file carries an
error and is never passed on for storage. -/
theorem validateRujukanFile_spec (f : FileV) :
    ((validateRujukanFile f).valid = true ↔
      f.type ∈ allowedRujukanTypes ∧ f.size ≤ MAX_FILE_SIZE)
    ∧ ((validateRujukanFile f).valid = false →
      (validateRujukanFile f).error.isSome = true ∧ handleFile f = none) := by
  unfold handleFile validateRujukanFile
  split_ifs with h1 h2 <;> simp_all [List.elem_iff]

/-- Witness for C9 at a concrete accepted PDF and the rejected GIF. -/
theorem validateRujukanFile_spec_witness :
    ((validateRujukanFile pdfFile).valid = true ↔
      pdfFile.type ∈ allowedRujukanTypes ∧ pdfFile.size ≤ MAX_FILE_SIZE)
    ∧ ((validateRujukanFile gifFile).error.isSome = true
        ∧ handleFile gifFile = none) :=
  ⟨(validateRujukanFile_spec pdfFile).1,
    (validateRujukanFile_spec gifFile).2 (by decide)⟩

end SIMRS
